import Mathlib

/-!
# Verification development for the lox tree-walking interpreter

This file gives a shallow embedding, in Lean 4, of the parts of the
`lucazffz/lox` Go repository that the checked properties are about:

* the lexical scanner (`internal/scan/scan.go`),
* the static resolver (`internal/ast/resolver.go`, the generation that
  records depths into the `Locals` side table),
* the runtime environment (`internal/ast/environment.go`),
* the expression evaluator (`internal/ast/evaluate.go`, primary version),
* the value model and callable values (`internal/ast/value.go`), and
* the block-execution helper (`internal/ast/interpreter.go`).

The repository mixes several historical generations of the interpreter.
Where a file contains several versions, the first (primary) version is
embedded; older appended versions are treated as history.  A few pieces of
the newest generation (notably the statement/expression evaluator that
consumes the resolver `Locals` table, and the `GetAt` environment helper)
are not present in the repository at all, although their declarations,
writers and callers are; those pieces are modelled from the specification
and are explicitly marked `Modelled from the spec:` in their doc comments.

Go `map[string]V` values are embedded as association lists
(`List (String × V)`) with last-write-wins update; Go `float64` is embedded
as `ℚ` (the checked properties depend only on control flow, type tags and
comparison with zero, never on rounding); Go panics (out-of-range index)
are made explicit with `panicked` flags or `Option` results.
-/

namespace Lox

/-- Token kinds, from `internal/token/token.go`.  The committed `token.go`
in the repository predates the scanner: the scanner also references
`token.BREAK` and `token.ERROR`, so those two kinds are included here as
the scanner requires them. -/
inductive TokenType where
  | WHITESPACE | COMMENT | EOF
  | LEFT_PAREN | RIGHT_PAREN | LEFT_BRACE | RIGHT_BRACE
  | COMMA | DOT | PLUS | MINUS | SEMICOLON | SLASH | STAR
  | BANG | BANG_EQUAL | EQUAL | EQUAL_EQUAL
  | GREATER | GREATER_EQUAL | LESS | LESS_EQUAL
  | COLON | QUESTION
  | IDENTIFIER | STRING | NUMBER
  | AND | CLASS | ELSE | FALSE | FUN | FOR | IF | NIL | OR
  | PRINT | RETURN | SUPER | THIS | TRUE | VAR | WHILE
  | BREAK | ERROR
  deriving DecidableEq, Repr

/-- A token, from `internal/token/token.go` (`Token{Type, Lexme, Literal,
Line}`).  The `Literal` payload keeps the decoded characters (for `NUMBER`
the source stores the 8-byte IEEE-754 encoding of the parsed value
instead; no checked property reads the numeric payload, so the raw
characters are kept here). -/
structure Token where
  type : TokenType
  lexme : String
  literal : Option String
  line : Nat
  deriving DecidableEq, Repr

/-- Constructor `token.NewToken`. -/
def NewToken (type : TokenType) (lexme : String) (literal : Option String)
    (line : Nat) : Token :=
  ⟨type, lexme, literal, line⟩

/-- A runtime environment, from `internal/ast/environment.go`: a bindings
map together with an optional enclosing environment.  The Go map is an
association list here (`lookup` finds the most recent binding); the
environment is generic in the value type because the repository uses the
same structure with several generations of value types. -/
inductive Environment (α : Type) where
  | mk (bindings : List (String × α)) (enclosing : Option (Environment α))

/-- Decidable equality of environment chains (the automatic derivation does
not handle the nested `Option`). -/
def Environment.decEq {α : Type} [DecidableEq α] :
    (a b : Environment α) → Decidable (a = b)
  | .mk b1 none, .mk b2 none =>
    if h : b1 = b2 then .isTrue (by rw [h]) else .isFalse (by simp [h])
  | .mk _ none, .mk _ (some _) => .isFalse (by simp)
  | .mk _ (some _), .mk _ none => .isFalse (by simp)
  | .mk b1 (some e1), .mk b2 (some e2) =>
    if h : b1 = b2 then
      match Environment.decEq e1 e2 with
      | .isTrue he => .isTrue (by rw [h, he])
      | .isFalse he => .isFalse (by simp [he])
    else .isFalse (by simp [h])

instance {α : Type} [DecidableEq α] : DecidableEq (Environment α) :=
  Environment.decEq

/-- The bindings map of an environment (`Environment.enviornment` in the
source, which spells the field this way). -/
def Environment.bindings {α : Type} : Environment α → List (String × α)
  | .mk b _ => b

/-- The enclosing environment (`Environment.enclosing`). -/
def Environment.enclosing {α : Type} : Environment α → Option (Environment α)
  | .mk _ e => e

/-- Function `NewEnvironment(enclosing)`: fresh empty bindings over the
given enclosing environment. -/
def NewEnvironment {α : Type} (enclosing : Option (Environment α)) : Environment α :=
  .mk [] enclosing

/-- Map update `m[name] = value` for the association-list embedding of a Go
map: replace the binding if the key is present, otherwise add it. -/
def mapInsert {α : Type} : List (String × α) → String → α → List (String × α)
  | [], name, v => [(name, v)]
  | (k, w) :: rest, name, v =>
    if k = name then (name, v) :: rest else (k, w) :: mapInsert rest name v

/-- Method `Environment.Assign(name, value)` from
`internal/ast/environment.go`: if the own bindings map holds `name`,
rewrite it there; otherwise recurse into the enclosing environment; with
no enclosing environment left, fail.  The in-place pointer mutation of the
Go method is embedded functionally: `some env2` is the updated chain,
`none` is the `errors.New("")` failure. -/
def Environment.Assign {α : Type} : Environment α → String → α → Option (Environment α)
  | .mk b encl, name, value =>
    if (b.lookup name).isSome then
      some (.mk (mapInsert b name value) encl)
    else
      match encl with
      | some e =>
        match e.Assign name value with
        | some e2 => some (.mk b (some e2))
        | none => none
      | none => none

/-- Method `Environment.Get(name)` from `internal/ast/environment.go`:
read the own bindings map, else recurse outward; `none` is the
`errors.New("")` failure.  (The Go method takes a token and reads
`name.Lexme`; the lexeme string is passed directly here.) -/
def Environment.Get {α : Type} : Environment α → String → Option α
  | .mk b encl, name =>
    match b.lookup name with
    | some v => some v
    | none =>
      match encl with
      | some e => e.Get name
      | none => none

/-- Function `Define(env, name, value)` from `internal/ast/environment.go`:
builds a new environment holding only the new binding, enclosing the given
one ("Each variable declaration will create a new environment"). -/
def Define {α : Type} (env : Environment α) (name : String) (value : α) :
    Environment α :=
  .mk (mapInsert [] name value) (some env)

/-- The list of scopes of an environment chain, innermost first: each
element is one bindings map of the chain. -/
def Environment.frames {α : Type} : Environment α → List (List (String × α))
  | .mk b none => [b]
  | .mk b (some e) => b :: e.frames

/-- Index of the nearest scope (0 = innermost) whose bindings hold `name`,
if any. -/
def Environment.nearestHolding {α : Type} : Environment α → String → Option Nat
  | .mk b encl, name =>
    if (b.lookup name).isSome then some 0
    else
      match encl with
      | some e => (e.nearestHolding name).map (· + 1)
      | none => none

theorem mapInsert_lookup_self {α : Type} (m : List (String × α)) (name : String)
    (v : α) : (mapInsert m name v).lookup name = some v := by
  induction m with
  | nil => simp [mapInsert, List.lookup]
  | cons p rest ih =>
    rcases p with ⟨k, w⟩
    by_cases hk : k = name
    · simp [mapInsert, hk, List.lookup]
    · have hne : (name == k) = false := by
        simp [Ne.symm hk]
      simp [mapInsert, hk, List.lookup, hne, ih]

theorem mapInsert_lookup_other {α : Type} (m : List (String × α)) (name m' : String)
    (v : α) (h : m' ≠ name) :
    (mapInsert m name v).lookup m' = m.lookup m' := by
  induction m with
  | nil =>
    have hne : (m' == name) = false := by simp [h]
    simp [mapInsert, List.lookup, hne]
  | cons p rest ih =>
    rcases p with ⟨k, w⟩
    by_cases hk : k = name
    · have hne : (m' == name) = false := by simp [h]
      simp [mapInsert, hk, List.lookup, hne]
    · simp [mapInsert, hk, List.lookup, ih]

/-- Specification of `Environment.Assign`, proved by structural recursion
over the chain: assignment fails exactly when no scope of the chain binds
the name, and a successful assignment rewrites the binding of the name in
the nearest scope holding it while every other scope, and every other
binding of that scope, is unchanged. -/
theorem Environment_Assign_spec {α : Type} (name : String) (v : α) :
    ∀ env : Environment α,
      (env.Assign name v = none ↔ env.nearestHolding name = none) ∧
      (∀ env2, env.Assign name v = some env2 →
        ∃ k, env.nearestHolding name = some k ∧
          env2.frames.length = env.frames.length ∧
          (∀ j, j ≠ k → env2.frames.getD j [] = env.frames.getD j []) ∧
          (env2.frames.getD k []).lookup name = some v ∧
          ∀ m, m ≠ name →
            (env2.frames.getD k []).lookup m = (env.frames.getD k []).lookup m)
  | .mk b none => by
    by_cases hb : (b.lookup name).isSome
    · have hassign : Environment.Assign (.mk b none) name v
          = some (.mk (mapInsert b name v) none) := by
        simp [Environment.Assign, hb]
      refine ⟨by simp [hassign, Environment.nearestHolding, hb], ?_⟩
      intro env2 henv2
      rw [hassign] at henv2
      obtain rfl : Environment.mk (mapInsert b name v) none = env2 :=
        Option.some.inj henv2
      refine ⟨0, by simp [Environment.nearestHolding, hb], ?_, ?_, ?_, ?_⟩
      · simp [Environment.frames]
      · intro j hj
        match j, hj with
        | (j' + 1), _ => simp [Environment.frames]
      · simp [Environment.frames, mapInsert_lookup_self]
      · intro m hm
        simp [Environment.frames, mapInsert_lookup_other _ _ _ _ hm]
    · refine ⟨by simp [Environment.Assign, Environment.nearestHolding, hb], ?_⟩
      intro env2 henv2
      simp [Environment.Assign, hb] at henv2
  | .mk b (some e) => by
    have ih := Environment_Assign_spec name v e
    by_cases hb : (b.lookup name).isSome
    · have hassign : Environment.Assign (.mk b (some e)) name v
          = some (.mk (mapInsert b name v) (some e)) := by
        simp [Environment.Assign, hb]
      refine ⟨by simp [hassign, Environment.nearestHolding, hb], ?_⟩
      intro env2 henv2
      rw [hassign] at henv2
      obtain rfl : Environment.mk (mapInsert b name v) (some e) = env2 :=
        Option.some.inj henv2
      refine ⟨0, by simp [Environment.nearestHolding, hb], ?_, ?_, ?_, ?_⟩
      · simp [Environment.frames]
      · intro j hj
        match j, hj with
        | (j' + 1), _ => simp [Environment.frames]
      · simp [Environment.frames, mapInsert_lookup_self]
      · intro m hm
        simp [Environment.frames, mapInsert_lookup_other _ _ _ _ hm]
    · constructor
      · cases he : e.Assign name v with
        | none =>
          have := (ih.1).mp he
          simp [Environment.Assign, hb, he, Environment.nearestHolding, this]
        | some e2 =>
          have : ¬ e.nearestHolding name = none := by
            intro hn
            have := (ih.1).mpr hn
            rw [this] at he
            exact Option.noConfusion he
          simp [Environment.Assign, hb, he, Environment.nearestHolding, this]
      · intro env2 henv2
        cases he : e.Assign name v with
        | none => simp [Environment.Assign, hb, he] at henv2
        | some e2 =>
          have hassign : Environment.Assign (.mk b (some e)) name v
              = some (.mk b (some e2)) := by
            simp [Environment.Assign, hb, he]
          rw [hassign] at henv2
          obtain rfl : Environment.mk b (some e2) = env2 := Option.some.inj henv2
          obtain ⟨k, hk, hlen, hoth, hself, hsame⟩ := ih.2 e2 he
          refine ⟨k + 1, ?_, ?_, ?_, ?_, ?_⟩
          · simp [Environment.nearestHolding, hb, hk]
          · simp [Environment.frames, hlen]
          · intro j hj
            match j with
            | 0 => simp [Environment.frames]
            | (j' + 1) =>
              have hj' : j' ≠ k := by omega
              simpa [Environment.frames] using hoth j' hj'
          · simpa [Environment.frames] using hself
          · intro m hm
            simpa [Environment.frames] using hsame m hm

/-- C10: `Environment.Assign` updates exactly the nearest enclosing scope
that already binds the name — that scope gets the new value for the name
while keeping its other bindings, and every other scope of the chain is
unchanged — and if no scope in the chain binds the name, `Assign` returns
an error and no bindings are modified. -/
theorem C10_environment_assign_nearest {α : Type} (env : Environment α)
    (name : String) (v : α) :
    (env.nearestHolding name = none → env.Assign name v = none) ∧
    (∀ k, env.nearestHolding name = some k →
      ∃ env2, env.Assign name v = some env2 ∧
        env2.frames.length = env.frames.length ∧
        (∀ j, j ≠ k → env2.frames.getD j [] = env.frames.getD j []) ∧
        (env2.frames.getD k []).lookup name = some v ∧
        ∀ m, m ≠ name →
          (env2.frames.getD k []).lookup m = (env.frames.getD k []).lookup m) := by
  have hs := Environment_Assign_spec name v env
  constructor
  · intro hnone
    exact (hs.1).mpr hnone
  · intro k hk
    cases ha : env.Assign name v with
    | none =>
      have := (hs.1).mp ha
      rw [this] at hk
      exact absurd hk (by simp)
    | some env2 =>
      obtain ⟨k2, hk2, hrest⟩ := hs.2 env2 ha
      rw [hk] at hk2
      obtain rfl : k = k2 := Option.some.inj hk2
      exact ⟨env2, rfl, hrest⟩

/-- Witness for C10 at a concrete two-scope chain: the inner scope binds
`y`, the outer binds `x`; assigning `x` rewrites the outer scope. -/
theorem C10_environment_assign_nearest_witness :
    (Environment.mk [("y", (0 : Nat))]
        (some (.mk [("x", 1)] none))).nearestHolding "x" = some 1 ∧
    (∃ env2, (Environment.mk [("y", (0 : Nat))]
        (some (.mk [("x", 1)] none))).Assign "x" 2 = some env2 ∧
      env2.frames.length =
        (Environment.mk [("y", (0 : Nat))]
          (some (.mk [("x", 1)] none))).frames.length ∧
      (∀ j, j ≠ 1 → env2.frames.getD j [] =
        (Environment.mk [("y", (0 : Nat))]
          (some (.mk [("x", 1)] none))).frames.getD j []) ∧
      (env2.frames.getD 1 []).lookup "x" = some 2 ∧
      ∀ m, m ≠ "x" →
        (env2.frames.getD 1 []).lookup m =
          ((Environment.mk [("y", (0 : Nat))]
            (some (.mk [("x", 1)] none))).frames.getD 1 []).lookup m) :=
  ⟨by decide,
   (C10_environment_assign_nearest
      (Environment.mk [("y", (0 : Nat))] (some (.mk [("x", 1)] none))) "x" 2).2
      1 (by decide)⟩

/-- Modelled from the spec: the environment helper `get_at(depth, name)` of
section 4.4 is absent from the repository (no `GetAt` exists in any
committed file).  Per the spec it "reaches exactly `depth` scopes outward
without searching": follow the enclosing pointer exactly `depth` times and
read the bindings map of the reached scope only.  A chain shorter than
`depth`, or an absent binding there, gives `none`. -/
def Environment.GetAt {α : Type} : Environment α → Nat → String → Option α
  | .mk b _, 0, name => b.lookup name
  | .mk _ (some e), d + 1, name => e.GetAt d name
  | .mk _ none, _ + 1, _ => none

/-- The root of an environment chain: the global environment
(`interpreter.go` keeps it in `global_env`; every chain encloses it). -/
def Environment.globalEnv {α : Type} : Environment α → Environment α
  | .mk b none => .mk b none
  | .mk _ (some e) => e.globalEnv

/-- The resolver side table, from `internal/ast/interpreter.go`:
`Locals map[ExprHashable]int`, keyed by the string serialization of the
expression node (`ExprHashable`). -/
def Locals : Type := List (String × Nat)

/-- Modelled from the spec: evaluation of a `Variable` expression by the
current-generation evaluator, which is absent from the repository (the
`Locals` table is declared in `interpreter.go` and filled by
`resolver.resolveLocal`, but no committed code reads it).  Following
section 4.5 of the spec: if the resolver recorded a depth for this
expression, look the name up with `get_at` at that depth; otherwise fall
back to a lookup in the global environment; an undefined variable is a
runtime error. -/
def evaluateVariable {α : Type} (locals : Locals) (key : String)
    (name : String) (env : Environment α) : Except String α :=
  match List.lookup key locals with
  | some d =>
    match env.GetAt d name with
    | some v => .ok v
    | none => .error ("runtime error - undefined variable " ++ name)
  | none =>
    match env.globalEnv.Get name with
    | some v => .ok v
    | none => .error ("runtime error - undefined variable " ++ name)

theorem GetAt_frames {α : Type} (name : String) :
    ∀ (env : Environment α) (d : Nat),
      env.GetAt d name = (env.frames.getD d []).lookup name
  | .mk b none, 0 => by simp [Environment.GetAt, Environment.frames]
  | .mk b none, d + 1 => by simp [Environment.GetAt, Environment.frames]
  | .mk b (some e), 0 => by simp [Environment.GetAt, Environment.frames]
  | .mk b (some e), d + 1 => by
    simpa [Environment.GetAt, Environment.frames] using GetAt_frames name e d

theorem globalEnv_get_frames {α : Type} (name : String) :
    ∀ env : Environment α,
      env.globalEnv.Get name = ((env.frames.getLast?).getD []).lookup name
  | .mk b none => by
    cases h : List.lookup name b <;>
      simp [Environment.globalEnv, Environment.Get, Environment.frames, h]
  | .mk b (some e) => by
    obtain ⟨f, fs, hf⟩ : ∃ f fs, e.frames = f :: fs := by
      cases e with
      | mk b2 encl => cases encl <;> exact ⟨_, _, rfl⟩
    have h : (Environment.mk b (some e)).frames.getLast? = e.frames.getLast? := by
      rw [show (Environment.mk b (some e)).frames = b :: e.frames from rfl, hf]
      exact List.getLast?_cons_cons
    rw [h]
    simpa [Environment.globalEnv] using globalEnv_get_frames name e

/-- C1: after a successful resolve, a variable expression with a recorded
depth `d` is looked up by reaching exactly `d` scopes outward — the result
is fully determined by the bindings map of scope `d` alone, with no
searching — while an expression with no recorded depth falls back to a
lookup in the global (root) environment; in both cases an absent binding
yields a runtime error. -/
theorem C1_variable_lookup_uses_recorded_depth {α : Type} (locals : Locals)
    (key name : String) (env : Environment α) :
    (∀ d, List.lookup key locals = some d →
      (∀ v, evaluateVariable locals key name env = .ok v ↔
        (env.frames.getD d []).lookup name = some v) ∧
      ((env.frames.getD d []).lookup name = none →
        ∃ msg, evaluateVariable locals key name env = .error msg)) ∧
    (List.lookup key locals = none →
      (∀ v, evaluateVariable locals key name env = .ok v ↔
        ((env.frames.getLast?).getD []).lookup name = some v) ∧
      (((env.frames.getLast?).getD []).lookup name = none →
        ∃ msg, evaluateVariable locals key name env = .error msg)) := by
  constructor
  · intro d hd
    constructor
    · intro v
      simp only [evaluateVariable, hd, GetAt_frames]
      cases h : (env.frames.getD d []).lookup name <;> simp [h]
    · intro hnone
      simp only [evaluateVariable, hd, GetAt_frames, hnone]
      exact ⟨_, rfl⟩
  · intro hd
    constructor
    · intro v
      simp only [evaluateVariable, hd, globalEnv_get_frames]
      cases h : ((env.frames.getLast?).getD []).lookup name <;> simp [h]
    · intro hnone
      simp only [evaluateVariable, hd, globalEnv_get_frames, hnone]
      exact ⟨_, rfl⟩

/-- Witness for C1 at a concrete input: both the inner scope (depth 0) and
the outer scope (depth 1) bind `x`, the recorded depth is 1, and the
lookup returns the depth-1 binding, not the nearer one. -/
theorem C1_variable_lookup_uses_recorded_depth_witness :
    List.lookup "key" [("key", 1)] = some 1 ∧
    (evaluateVariable [("key", 1)] "key" "x"
        (Environment.mk [("x", (10 : Nat))] (some (.mk [("x", 20)] none))) =
          .ok 20 ↔
      (((Environment.mk [("x", (10 : Nat))]
          (some (.mk [("x", 20)] none))).frames.getD 1 []).lookup "x" = some 20)) :=
  ⟨by decide,
   ((C1_variable_lookup_uses_recorded_depth [("key", 1)] "key" "x"
      (Environment.mk [("x", (10 : Nat))] (some (.mk [("x", 20)] none)))).1
      1 (by decide)).1 20⟩

/-- Alias for the Lean string type, used where a Go `string` field sits in
a scope whose own `String` constructor would shadow the name. -/
abbrev GoString := String

namespace G1

/-- Runtime values of the primary expression evaluator in
`internal/ast/evaluate.go` (types `Boolean`, `Number`, `String`, `Nil`,
`Object` implementing `Value`).  Go `float64` is embedded as `ℚ`: the
checked properties depend only on type tags and comparison with zero. -/
inductive Value where
  | Boolean (b : Bool)
  | Number (n : ℚ)
  | String (s : GoString)
  | Nil
  | Object
  deriving DecidableEq, Repr

/-- Expressions of the primary evaluator generation, from
`internal/ast/evaluate.go` and `internal/ast/pretty_print.go`:
`Literal`, `Grouping`, `Unary`, `Binary`, `Ternary`, `Variable`, `Assign`
and the error-production sentinel `Nothing`.  Operator tokens are carried
by their kind (the evaluator reads only `Op.Type`); `Variable` and
`Assign` carry the identifier lexeme. -/
inductive Expr where
  | Literal (value : Value)
  | Grouping (expr : Expr)
  | Unary (op : TokenType) (right : Expr)
  | Binary (left : Expr) (op : TokenType) (right : Expr)
  | Ternary (condition : Expr) (left : Expr) (right : Expr)
  | Variable (name : GoString)
  | Assign (name : GoString) (value : Expr)
  | Nothing
  deriving DecidableEq, Repr

/-- Evaluation outcomes other than a value: a `RuntimeError` (function
`NewRuntimeError` prefixes the message), or a Go `panic` from the
"should never reach here" arms. -/
inductive EvalFault where
  | runtime (msg : GoString)
  | goPanic (msg : GoString)
  deriving DecidableEq, Repr

/-- Constructor `NewRuntimeError` composed with the `Error()` rendering of
`RuntimeError` in `internal/ast/evaluate.go`. -/
def NewRuntimeError (msg : GoString) : EvalFault :=
  .runtime ("runtime error - " ++ msg ++ "\n")

/-- Function `isTruthy`: `false` and `nil` are falsy, everything else is
truthy. -/
def isTruthy : Value → Bool
  | .Boolean b => b
  | .Nil => false
  | _ => true

/-- Function `isNumberValue`. -/
def isNumberValue : Value → Bool
  | .Number _ => true
  | _ => false

/-- Function `isStringValue`. -/
def isStringValue : Value → Bool
  | .String _ => true
  | _ => false

/-- Method `AsNumber`: only reached behind `isNumberValue` checks in the
evaluator (the Go method panics otherwise; the default is never read). -/
def Value.AsNumber : Value → ℚ
  | .Number n => n
  | _ => 0

/-- Method `AsString`: only reached behind `isStringValue` checks. -/
def Value.AsString : Value → GoString
  | .String s => s
  | _ => ""

/-- Function `equals` from `internal/ast/value.go`, restricted to the value
kinds of this generation: different kinds are never equal; `Nil` equals
`Nil`; `Object` values are always equal; the rest compare by value. -/
def equals : Value → Value → Bool
  | .Boolean a, .Boolean b => a == b
  | .Number a, .Number b => a == b
  | .String a, .String b => a == b
  | .Nil, .Nil => true
  | .Object, .Object => true
  | _, _ => false

/-- The evaluation state: the module-level `environment` variable of the
primary evaluator.  The in-place mutation of the Go code is embedded by
threading the environment through evaluation. -/
abbrev Env := Environment Value

/-- Result of `checkNumberOperands` (local function in `Binary.Evaluate`). -/
def checkNumberOperands (left right : Value) : Option EvalFault :=
  if ¬ isNumberValue left ∨ ¬ isNumberValue right then
    some (NewRuntimeError "both operands must be numbers")
  else none

/-- Result of `checkStringOperands` (local function in `Binary.Evaluate`). -/
def checkStringOperands (left right : Value) : Option EvalFault :=
  if ¬ isStringValue left ∨ ¬ isStringValue right then
    some (NewRuntimeError "both operands must be strings")
  else none

/-- Expression evaluation, from the primary (first) version of
`internal/ast/evaluate.go`.  Each `Evaluate` method becomes one arm; the
`if err != nil` propagation of the Go code is the explicit match on the
result, and the environment is threaded in evaluation order, so the
source-code order of the two `Evaluate` calls in `evaluateOperands` (left
first, then right) is the order in which the environment passes through
them. -/
def evaluate : Expr → Env → Except EvalFault (Value × Env)
  | .Literal v, env => .ok (v, env)
  | .Grouping e, env => evaluate e env
  | .Unary op right, env =>
    match evaluate right env with
    | .error e => .error e
    | .ok (r, env1) =>
      match op with
      | .BANG => .ok (.Boolean (! isTruthy r), env1)
      | .MINUS =>
        if ¬ isNumberValue r then
          .error (NewRuntimeError "operand must be a number")
        else .ok (.Number (- r.AsNumber), env1)
      | _ => .error (.goPanic "should never reach here")
  | .Binary left op right, env =>
    match op with
    | .AND | .OR =>
      match evaluate left env with
      | .error e => .error e
      | .ok (l, env1) =>
        if op = .OR then
          if isTruthy l then .ok (l, env1) else evaluate right env1
        else
          if ¬ isTruthy l then .ok (l, env1) else evaluate right env1
    | .PLUS =>
      match evaluate left env with
      | .error e => .error e
      | .ok (l, env1) =>
        match evaluate right env1 with
        | .error e => .error e
        | .ok (r, env2) =>
          if (checkNumberOperands l r).isNone then
            .ok (.Number (l.AsNumber + r.AsNumber), env2)
          else if (checkStringOperands l r).isNone then
            .ok (.String (l.AsString ++ r.AsString), env2)
          else .error (NewRuntimeError "operands must be of same type")
    | .MINUS =>
      match evaluate left env with
      | .error e => .error e
      | .ok (l, env1) =>
        match evaluate right env1 with
        | .error e => .error e
        | .ok (r, env2) =>
          match checkNumberOperands l r with
          | some e => .error e
          | none => .ok (.Number (l.AsNumber - r.AsNumber), env2)
    | .STAR =>
      match evaluate left env with
      | .error e => .error e
      | .ok (l, env1) =>
        match evaluate right env1 with
        | .error e => .error e
        | .ok (r, env2) =>
          match checkNumberOperands l r with
          | some e => .error e
          | none => .ok (.Number (l.AsNumber * r.AsNumber), env2)
    | .SLASH =>
      match evaluate left env with
      | .error e => .error e
      | .ok (l, env1) =>
        match evaluate right env1 with
        | .error e => .error e
        | .ok (r, env2) =>
          match checkNumberOperands l r with
          | some e => .error e
          | none =>
            if r.AsNumber = 0 then .error (NewRuntimeError "division by zero")
            else .ok (.Number (l.AsNumber / r.AsNumber), env2)
    | .GREATER =>
      match evaluate left env with
      | .error e => .error e
      | .ok (l, env1) =>
        match evaluate right env1 with
        | .error e => .error e
        | .ok (r, env2) =>
          if (checkNumberOperands l r).isNone then
            .ok (.Boolean (decide (r.AsNumber < l.AsNumber)), env2)
          else if (checkStringOperands l r).isNone then
            .ok (.Boolean (decide (r.AsString < l.AsString)), env2)
          else .error (NewRuntimeError "operands must be of same type")
    | .GREATER_EQUAL =>
      match evaluate left env with
      | .error e => .error e
      | .ok (l, env1) =>
        match evaluate right env1 with
        | .error e => .error e
        | .ok (r, env2) =>
          if (checkNumberOperands l r).isNone then
            .ok (.Boolean (decide (r.AsNumber ≤ l.AsNumber)), env2)
          else if (checkStringOperands l r).isNone then
            .ok (.Boolean (decide (r.AsString ≤ l.AsString)), env2)
          else .error (NewRuntimeError "operands must be of same type")
    | .LESS =>
      match evaluate left env with
      | .error e => .error e
      | .ok (l, env1) =>
        match evaluate right env1 with
        | .error e => .error e
        | .ok (r, env2) =>
          if (checkNumberOperands l r).isNone then
            .ok (.Boolean (decide (l.AsNumber < r.AsNumber)), env2)
          else if (checkStringOperands l r).isNone then
            .ok (.Boolean (decide (l.AsString < r.AsString)), env2)
          else .error (NewRuntimeError "operands must be of same type")
    | .LESS_EQUAL =>
      match evaluate left env with
      | .error e => .error e
      | .ok (l, env1) =>
        match evaluate right env1 with
        | .error e => .error e
        | .ok (r, env2) =>
          if (checkNumberOperands l r).isNone then
            .ok (.Boolean (decide (l.AsNumber ≤ r.AsNumber)), env2)
          else if (checkStringOperands l r).isNone then
            .ok (.Boolean (decide (l.AsString ≤ r.AsString)), env2)
          else .error (NewRuntimeError "operands must be of same type")
    | .EQUAL_EQUAL =>
      match evaluate left env with
      | .error e => .error e
      | .ok (l, env1) =>
        match evaluate right env1 with
        | .error e => .error e
        | .ok (r, env2) => .ok (.Boolean (equals l r), env2)
    | .BANG_EQUAL =>
      match evaluate left env with
      | .error e => .error e
      | .ok (l, env1) =>
        match evaluate right env1 with
        | .error e => .error e
        | .ok (r, env2) => .ok (.Boolean (! equals l r), env2)
    | _ => .error (.goPanic "should never reach here (binary)")
  | .Ternary c l r, env =>
    match evaluate c env with
    | .error e => .error e
    | .ok (cv, env1) =>
      if isTruthy cv then evaluate l env1 else evaluate r env1
  | .Variable name, env =>
    match env.Get name with
    | some v => .ok (v, env)
    | none => .error (NewRuntimeError ("undefined variable " ++ name))
  | .Assign name value, env =>
    match evaluate value env with
    | .error e => .error e
    | .ok (v, env1) =>
      match env1.Assign name v with
      | some env2 => .ok (v, env2)
      | none => .error (NewRuntimeError ("undefined variable " ++ name))
  | .Nothing, env => .ok (.Nil, env)

/-- The binary operator kinds handled by the non-logical arms of
`Binary.Evaluate` (every arm except `AND`/`OR` and the unreachable panic
arm). -/
def isNonLogicalBinaryOp : TokenType → Bool
  | .PLUS | .MINUS | .STAR | .SLASH
  | .GREATER | .GREATER_EQUAL | .LESS | .LESS_EQUAL
  | .EQUAL_EQUAL | .BANG_EQUAL => true
  | _ => false

/-- C5: for every non-logical binary expression the left operand is
evaluated first and the right operand second, in the state the left
evaluation produced — a fault of the left operand short-circuits the whole
expression before the right operand runs, a fault of the right operand
(evaluated in the post-left state) short-circuits the combination, and a
successful combination returns in the state produced by the right
operand.  Side effects in the operands (environment updates) therefore
observe this order. -/
theorem C5_binary_evaluates_left_then_right (l r : Expr) (op : TokenType)
    (hop : isNonLogicalBinaryOp op = true) (env : Env) :
    (∀ e, evaluate l env = .error e → evaluate (.Binary l op r) env = .error e) ∧
    (∀ lv env1 e, evaluate l env = .ok (lv, env1) →
      evaluate r env1 = .error e → evaluate (.Binary l op r) env = .error e) ∧
    (∀ lv env1 rv env2, evaluate l env = .ok (lv, env1) →
      evaluate r env1 = .ok (rv, env2) →
      (∃ msg, evaluate (.Binary l op r) env = .error msg) ∨
      (∃ v, evaluate (.Binary l op r) env = .ok (v, env2))) := by
  refine ⟨?_, ?_, ?_⟩
  · intro e he
    cases op <;> simp [isNonLogicalBinaryOp] at hop <;>
      (unfold evaluate; simp only [he])
  · intro lv env1 e hl hr
    cases op <;> simp [isNonLogicalBinaryOp] at hop <;>
      (unfold evaluate; simp only [hl, hr])
  · intro lv env1 rv env2 hl hr
    cases op <;> simp [isNonLogicalBinaryOp] at hop <;>
      (unfold evaluate
       simp only [hl, hr]
       repeat' split
       all_goals first
         | exact Or.inr ⟨_, rfl⟩
         | exact Or.inl ⟨_, rfl⟩)

/-- Witness for C5: with `a` initially `0`, evaluating
`(a = 1) == a` yields `true` — the right operand reads the value written
by the left operand, so the left operand ran first (right-to-left
evaluation would compare `1` with the old value `0` and yield `false`). -/
theorem C5_binary_evaluates_left_then_right_witness :
    isNonLogicalBinaryOp .EQUAL_EQUAL = true ∧
    ((∃ msg,
        evaluate (.Binary (.Assign "a" (.Literal (.Number 1))) .EQUAL_EQUAL
            (.Variable "a")) (.mk [("a", .Number 0)] none) = .error msg) ∨
      (∃ v,
        evaluate (.Binary (.Assign "a" (.Literal (.Number 1))) .EQUAL_EQUAL
            (.Variable "a")) (.mk [("a", .Number 0)] none) =
          .ok (v, .mk [("a", .Number 1)] none))) ∧
    evaluate (.Binary (.Assign "a" (.Literal (.Number 1))) .EQUAL_EQUAL
        (.Variable "a")) (.mk [("a", .Number 0)] none) =
      .ok (.Boolean true, .mk [("a", .Number 1)] none) :=
  ⟨rfl,
   (C5_binary_evaluates_left_then_right (.Assign "a" (.Literal (.Number 1)))
      (.Variable "a") .EQUAL_EQUAL rfl (.mk [("a", .Number 0)] none)).2.2
      (.Number 1) (.mk [("a", .Number 1)] none)
      (.Number 1) (.mk [("a", .Number 1)] none) rfl rfl,
   rfl⟩

/-- C6: the arithmetic operators `-`, `*` and `/` require both operands to
be numbers (a non-number operand is a runtime error), and a division whose
right operand is the number zero is the runtime error "division by zero"
rather than a numeric result. -/
theorem C6_arithmetic_types_and_division_by_zero (l r : Expr) (op : TokenType)
    (hop : op = .MINUS ∨ op = .STAR ∨ op = .SLASH) (env : Env)
    (lv rv : Value) (env1 env2 : Env)
    (hl : evaluate l env = .ok (lv, env1))
    (hr : evaluate r env1 = .ok (rv, env2)) :
    ((¬ isNumberValue lv ∨ ¬ isNumberValue rv) →
      evaluate (.Binary l op r) env =
        .error (NewRuntimeError "both operands must be numbers")) ∧
    (op = .SLASH → isNumberValue lv → rv = .Number 0 →
      evaluate (.Binary l op r) env =
        .error (NewRuntimeError "division by zero")) := by
  constructor
  · intro hnn
    have hc : checkNumberOperands lv rv =
        some (NewRuntimeError "both operands must be numbers") := by
      unfold checkNumberOperands
      exact if_pos hnn
    rcases hop with rfl | rfl | rfl <;>
      (unfold evaluate; simp only [hl, hr, hc])
  · intro hslash hlv hrv
    subst hslash
    subst hrv
    have hcond : ¬ (¬ isNumberValue lv = true ∨
        ¬ isNumberValue (Value.Number 0) = true) :=
      not_or.mpr ⟨not_not_intro hlv, not_not_intro rfl⟩
    have hc : checkNumberOperands lv (.Number 0) = none := by
      unfold checkNumberOperands
      exact if_neg hcond
    unfold evaluate
    simp only [hl, hr, hc]
    simp [Value.AsNumber]

/-- Witness for C6: `1 / 0` evaluates to the "division by zero" runtime
error. -/
theorem C6_arithmetic_types_and_division_by_zero_witness :
    evaluate (.Binary (.Literal (.Number 1)) .SLASH (.Literal (.Number 0)))
        (.mk [] none) =
      .error (NewRuntimeError "division by zero") :=
  (C6_arithmetic_types_and_division_by_zero
      (.Literal (.Number 1)) (.Literal (.Number 0)) .SLASH
      (Or.inr (Or.inr rfl)) (.mk [] none)
      (.Number 1) (.Number 0) (.mk [] none) (.mk [] none)
      rfl rfl).2 rfl (by decide) rfl

end G1

namespace Res

mutual

/-- Expressions of the current generation, as constructed by
`internal/parse/parse.go` and consumed by the resolver in
`internal/ast/resolver.go` (the generation that fills `Locals`).
`CallStmt` is an expression as in the source, and literal payloads are
dropped because the resolver never reads them. -/
inductive Expr where
  | BinaryExpr (left : Expr) (op : Token) (right : Expr)
  | GroupingExpr (expr : Expr)
  | LiteralExpr
  | UnaryExpr (op : Token) (right : Expr)
  | TernaryExpr (condition : Expr) (left : Expr) (right : Expr)
  | VariableExpr (name : Token)
  | AssignExpr (name : Token) (value : Expr)
  | FunctionExpr (parameters : List Token) (body : List Stmt)
  | CallStmt (callee : Expr) (paren : Token) (arguments : List Expr)
  | NothingExpr

/-- Statements of the current generation.  Interface-typed `nil` fields of
the Go structs (`VarStmt.Initializer`, `IfStmt.ElseBranch`,
`ReturnStmt.Expr`) are `Option`s. -/
inductive Stmt where
  | ExpressionStmt (expr : Expr)
  | PrintStmt (expr : Expr)
  | VarStmt (name : Token) (initializer : Option Expr)
  | BlockStmt (statements : List Stmt)
  | IfStmt (condition : Expr) (thenBranch : Stmt) (elseBranch : Option Stmt)
  | WhileStmt (condition : Expr) (body : Stmt)
  | BreakStmt
  | ReturnStmt (expr : Option Expr)
  | FunctionStmt (name : Token) (parameters : List Token) (body : List Stmt)

end

/-- The resolver state, from `internal/ast/resolver.go` (struct
`resolver`): the scope stack (each scope maps a name to its initialized
flag), the two context flags, and the error flag.  The Go stack appends
the innermost scope at the end of the slice; here the innermost scope is
the HEAD of the list, so the depth `len(scope)-1-i` computed by
`resolveLocal` is a plain `findIdx?` from the head.  The `report` callback
is embedded as the accumulating `reported` list, and the package-level
`Locals` table written by `resolveLocal` is the `locals` field, keyed by
the expression node (the source keys it by the string serialization of
the node). -/
structure RState where
  scope : List (List (String × Bool))
  withinFunction : Bool
  withinLoop : Bool
  errOccurred : Bool
  reported : List String
  locals : List (Expr × Nat)

/-- Constructor `newResolver`. -/
def newResolver : RState :=
  ⟨[], false, false, false, [], []⟩

/-- Method `resolver.ScopePeek`: the innermost scope, if any. -/
def RState.ScopePeek (st : RState) : Option (List (String × Bool)) :=
  st.scope.head?

/-- Method `resolver.BeginScope`. -/
def RState.BeginScope (st : RState) : RState :=
  {st with scope := [] :: st.scope}

/-- Method `resolver.EndScope` (no-op on an empty stack, as in the
source). -/
def RState.EndScope (st : RState) : RState :=
  match st.scope with
  | [] => st
  | _ :: rest => {st with scope := rest}

/-- Method `resolver.Declare`: with a nonempty scope stack, report
"variable already declared in this scope" when the innermost scope already
has the name, then write `name = false` (uninitialized) there; with an
empty stack do nothing. -/
def RState.Declare (st : RState) (name : String) : RState :=
  match st.scope with
  | [] => st
  | top :: rest =>
    let st1 :=
      if (top.lookup name).isSome then
        {st with errOccurred := true,
                 reported := st.reported ++
                   ["resolver error: variable already declared in this scope"]}
      else st
    {st1 with scope := mapInsert top name false :: rest}

/-- Method `resolver.Define`: mark the name initialized in the innermost
scope; with an empty stack do nothing. -/
def RState.Define (st : RState) (name : String) : RState :=
  match st.scope with
  | [] => st
  | top :: rest => {st with scope := mapInsert top name true :: rest}

/-- Method `resolver.resolveLocal`: scan the scope stack from the
innermost scope outward; at the first scope containing the name record the
scope distance for this expression node into `Locals`; record nothing on a
miss. -/
def RState.resolveLocal (st : RState) (expr : Expr) (name : String) : RState :=
  match st.scope.findIdx? (fun sc => (sc.lookup name).isSome) with
  | some d => {st with locals := (expr, d) :: st.locals}
  | none => st

/-- Helper for the error-reporting statements (`return` outside function,
`break` outside loop): invoke the report callback and set the flag. -/
def RState.reportErr (st : RState) (msg : String) : RState :=
  {st with errOccurred := true, reported := st.reported ++ [msg]}

mutual

/-- Expression arms of `Resolve` in `internal/ast/resolver.go`
(methods `BinaryExpr.Resolve` … `NothingExpr.Resolve`). -/
def resolveExpr : Expr → RState → RState
  | .BinaryExpr l _ r, st => resolveExpr r (resolveExpr l st)
  | .GroupingExpr e, st => resolveExpr e st
  | .LiteralExpr, st => st
  | .VariableExpr name, st =>
    let st1 :=
      match st.ScopePeek with
      | some sc =>
        match sc.lookup name.lexme with
        | some false =>
          st.reportErr "resolver error: variable used before initialization"
        | _ => st
      | none => st
    st1.resolveLocal (.VariableExpr name) name.lexme
  | .UnaryExpr _ r, st => resolveExpr r st
  | .TernaryExpr c l r, st => resolveExpr r (resolveExpr l (resolveExpr c st))
  | .AssignExpr name v, st =>
    (resolveExpr v st).resolveLocal (.AssignExpr name v) name.lexme
  | .FunctionExpr params body, st => resolveFunction params body st
  | .CallStmt callee _ args, st => resolveExprs args (resolveExpr callee st)
  | .NothingExpr, st => st

/-- Resolution of an argument list (the loop in `CallStmt.Resolve`). -/
def resolveExprs : List Expr → RState → RState
  | [], st => st
  | e :: rest, st => resolveExprs rest (resolveExpr e st)

/-- Method `resolver.resolveFunction`: remember `withinFunction`, set it,
push a scope, declare and define every parameter, resolve the body, then
pop the scope and restore the flag (the deferred epilogue). -/
def resolveFunction (params : List Token) (body : List Stmt) (st : RState) :
    RState :=
  let enclosingFunction := st.withinFunction
  let st1 := {st with withinFunction := true}.BeginScope
  let st2 := declareParams params st1
  let st3 := resolveStmts body st2
  {st3.EndScope with withinFunction := enclosingFunction}

/-- The parameter loop of `resolveFunction`: `Declare` then `Define` each
parameter name. -/
def declareParams : List Token → RState → RState
  | [], st => st
  | p :: rest, st => declareParams rest ((st.Declare p.lexme).Define p.lexme)

/-- The statement arms of `Resolve` in `internal/ast/resolver.go`
(methods `BlockStmt.Resolve` … `BreakStmt.Resolve`). -/
def resolveStmt : Stmt → RState → RState
  | .ExpressionStmt e, st => resolveExpr e st
  | .PrintStmt e, st => resolveExpr e st
  | .VarStmt name init, st =>
    let st1 := st.Declare name.lexme
    let st2 :=
      match init with
      | some e => resolveExpr e st1
      | none => st1
    st2.Define name.lexme
  | .BlockStmt stmts, st => (resolveStmts stmts st.BeginScope).EndScope
  | .IfStmt c t e, st =>
    let st1 := resolveStmt t (resolveExpr c st)
    match e with
    | some s => resolveStmt s st1
    | none => st1
  | .WhileStmt c b, st =>
    let enclosingLoop := st.withinLoop
    let st1 := {st with withinLoop := true}
    let st2 := resolveStmt b (resolveExpr c st1)
    {st2 with withinLoop := enclosingLoop}
  | .BreakStmt, st =>
    if ¬ st.withinLoop then
      st.reportErr "resolver error: break statement outside of loop"
    else st
  | .ReturnStmt e, st =>
    let st1 :=
      if ¬ st.withinFunction then
        st.reportErr "resolver error: return statement outside of function"
      else st
    match e with
    | some ex => resolveExpr ex st1
    | none => st1
  | .FunctionStmt name params body, st =>
    resolveFunction params body ((st.Declare name.lexme).Define name.lexme)

/-- The statement loop of the entry point and of `BlockStmt.Resolve`. -/
def resolveStmts : List Stmt → RState → RState
  | [], st => st
  | s :: rest, st => resolveStmts rest (resolveStmt s st)

end

/-- Entry point `Resolve(stmts, report)`: push one top-level scope, resolve
every statement, pop the scope (the deferred `EndScope`); the Go function
returns a non-nil error exactly when `errOccurred` is set in the final
state. -/
def Resolve (stmts : List Stmt) : RState :=
  (resolveStmts stmts newResolver.BeginScope).EndScope

/-- An identifier token (the parser produces these for declaration
names). -/
def ident (n : String) : Token :=
  ⟨.IDENTIFIER, n, some n, 1⟩

theorem Declare_scope (st : RState) (n : String) (top : List (String × Bool))
    (rest : List (List (String × Bool))) (hsc : st.scope = top :: rest) :
    (st.Declare n).scope = mapInsert top n false :: rest := by
  by_cases hdup : (top.lookup n).isSome <;>
    simp [RState.Declare, hsc, hdup]

theorem Declare_err_of_dup (st : RState) (n : String)
    (top : List (String × Bool)) (rest : List (List (String × Bool)))
    (hsc : st.scope = top :: rest) (hdup : (top.lookup n).isSome) :
    (st.Declare n).errOccurred = true := by
  simp [RState.Declare, hsc, hdup]

theorem Define_scope (st : RState) (n : String) (top : List (String × Bool))
    (rest : List (List (String × Bool))) (hsc : st.scope = top :: rest) :
    (st.Define n).scope = mapInsert top n true :: rest ∧
    (st.Define n).errOccurred = st.errOccurred := by
  simp [RState.Define, hsc]

theorem Define_err (st : RState) (n : String) :
    (st.Define n).errOccurred = st.errOccurred := by
  cases hsc : st.scope with
  | nil => simp [RState.Define, hsc]
  | cons top rest => simp [RState.Define, hsc]

/-- Resolving one `var n;` declaration (`VarStmt` with the sentinel
initializer) from a state whose scope stack shows `top :: rest`: the
innermost scope afterwards holds `n`, and the error flag is unchanged
unless the scope already held `n`. -/
theorem resolveStmt_var_scope (st : RState) (n : String)
    (top : List (String × Bool)) (rest : List (List (String × Bool)))
    (hsc : st.scope = top :: rest) :
    (resolveStmt (.VarStmt (ident n) (some .NothingExpr)) st).scope =
      mapInsert (mapInsert top n false) n true :: rest ∧
    ((top.lookup n).isSome →
      (resolveStmt (.VarStmt (ident n) (some .NothingExpr)) st).errOccurred
        = true) ∧
    (st.errOccurred = true →
      (resolveStmt (.VarStmt (ident n) (some .NothingExpr)) st).errOccurred
        = true) := by
  have hds := Declare_scope st n top rest hsc
  refine ⟨?_, ?_, ?_⟩
  · simp only [resolveStmt, resolveExpr, ident]
    exact (Define_scope _ n _ rest hds).1
  · intro hdup
    simp only [resolveStmt, resolveExpr, ident, Define_err]
    exact Declare_err_of_dup st n top rest hsc hdup
  · intro herr
    simp only [resolveStmt, resolveExpr, ident, Define_err]
    by_cases hdup : (top.lookup n).isSome
    · exact Declare_err_of_dup st n top rest hsc hdup
    · simp [RState.Declare, hsc, hdup, herr]

/-- Resolving the two-statement top-level program `var n; var n;` sets the
resolver error flag: `Resolve` pushes a scope before the top-level
statements, so the second declaration is a duplicate in that scope. -/
theorem Resolve_varvar_err (n : String) :
    (Resolve [.VarStmt (ident n) (some .NothingExpr),
              .VarStmt (ident n) (some .NothingExpr)]).errOccurred = true := by
  have hsc0 : (newResolver.BeginScope).scope =
      ([] : List (String × Bool)) :: [] := rfl
  have h1 := resolveStmt_var_scope newResolver.BeginScope n [] [] hsc0
  have h2 := resolveStmt_var_scope _ n _ [] h1.1
  have hdup : ((mapInsert (mapInsert [] n false) n true).lookup n).isSome := by
    simp [mapInsert_lookup_self]
  have herr := h2.2.1 hdup
  simp only [Resolve, resolveStmts]
  rcases hfin : (resolveStmt (.VarStmt (ident n) (some .NothingExpr))
      (resolveStmt (.VarStmt (ident n) (some .NothingExpr))
        newResolver.BeginScope)).scope with _ | ⟨t, r⟩ <;>
    simp [RState.EndScope, hfin, herr]

/-- C3, amended: declaring the same name twice (with `var` or with `fun`)
in one scope is a static resolve error in EVERY scope the resolver tracks
— and that includes the top-level (global) scope, because `Resolve` begins
by pushing a scope that covers the top-level declarations.  Redeclaration
is silent only when the scope stack is empty, which never happens during
`Resolve`. -/
theorem C3_duplicate_declaration_errors (n : String) (st : RState)
    (top : List (String × Bool)) (rest : List (List (String × Bool)))
    (hsc : st.scope = top :: rest) :
    ((resolveStmts [.VarStmt (ident n) (some .NothingExpr),
                    .VarStmt (ident n) (some .NothingExpr)] st).errOccurred
      = true) ∧
    ((resolveStmts [.FunctionStmt (ident n) [] [],
                    .FunctionStmt (ident n) [] []] st).errOccurred = true) ∧
    ((Resolve [.VarStmt (ident n) (some .NothingExpr),
               .VarStmt (ident n) (some .NothingExpr)]).errOccurred = true) := by
  refine ⟨?_, ?_, ?_⟩
  · have h1 := resolveStmt_var_scope st n top rest hsc
    have h2 := resolveStmt_var_scope _ n _ rest h1.1
    have hdup : ((mapInsert (mapInsert top n false) n true).lookup n).isSome := by
      simp [mapInsert_lookup_self]
    simp only [resolveStmts]
    exact h2.2.1 hdup
  · have hfun : ∀ st2 : RState, ∀ top2 rest2, st2.scope = top2 :: rest2 →
        (resolveStmt (.FunctionStmt (ident n) [] []) st2).scope =
          mapInsert (mapInsert top2 n false) n true :: rest2 ∧
        ((top2.lookup n).isSome →
          (resolveStmt (.FunctionStmt (ident n) [] []) st2).errOccurred = true) := by
      intro st2 top2 rest2 hsc2
      have hds := Declare_scope st2 n top2 rest2 hsc2
      have hdf := (Define_scope _ n _ rest2 hds).1
      constructor
      · simp only [resolveStmt, resolveFunction, declareParams, resolveStmts,
          ident, RState.BeginScope, RState.EndScope]
        simpa using hdf
      · intro hdup
        have herr : ((st2.Declare n).Define n).errOccurred = true := by
          rw [Define_err]
          exact Declare_err_of_dup st2 n top2 rest2 hsc2 hdup
        simp only [resolveStmt, resolveFunction, declareParams, resolveStmts,
          ident, RState.BeginScope, RState.EndScope]
        simpa using herr
    have h1 := hfun st top rest hsc
    have h2 := hfun _ _ rest h1.1
    have hdup : ((mapInsert (mapInsert top n false) n true).lookup n).isSome := by
      simp [mapInsert_lookup_self]
    simp only [resolveStmts]
    exact h2.2 hdup
  · exact Resolve_varvar_err n

/-- Witness for C3 at the top-level scope that `Resolve` pushes: both
duplicate `var` and duplicate `fun` declarations of `x` set the error
flag. -/
theorem C3_duplicate_declaration_errors_witness :
    (newResolver.BeginScope).scope = [[]] ∧
    ((resolveStmts [.VarStmt (ident "x") (some .NothingExpr),
                    .VarStmt (ident "x") (some .NothingExpr)]
        newResolver.BeginScope).errOccurred = true) ∧
    ((resolveStmts [.FunctionStmt (ident "x") [] [],
                    .FunctionStmt (ident "x") [] []]
        newResolver.BeginScope).errOccurred = true) ∧
    ((Resolve [.VarStmt (ident "x") (some .NothingExpr),
               .VarStmt (ident "x") (some .NothingExpr)]).errOccurred = true) :=
  ⟨rfl,
   (C3_duplicate_declaration_errors "x" newResolver.BeginScope [] [] rfl).1,
   (C3_duplicate_declaration_errors "x" newResolver.BeginScope [] [] rfl).2.1,
   (C3_duplicate_declaration_errors "x" newResolver.BeginScope [] [] rfl).2.2⟩

/-- Counterexample for C3 as stated: the claim says that at global scope a
redeclaration is allowed and reports no error, but resolving the top-level
program `var x; var x;` sets the resolver error flag (and reports
"variable already declared in this scope"), because `Resolve` pushes a
scope that also covers top-level declarations. -/
theorem C3_counterexample_global_redeclaration :
    ¬ ((Resolve [.VarStmt (ident "x") (some .NothingExpr),
                 .VarStmt (ident "x") (some .NothingExpr)]).errOccurred = false ∧
       (Resolve [.VarStmt (ident "x") (some .NothingExpr),
                 .VarStmt (ident "x") (some .NothingExpr)]).reported = []) := by
  intro h
  have := Resolve_varvar_err "x"
  rw [this] at h
  exact Bool.noConfusion h.1

end Res

namespace Scan

/-- The NUL rune: `rune(0)`, which `peek` returns at end of input. -/
def nulChar : Char := Char.ofNat 0

/-- Options of the scanner, from `internal/scan/scan.go` (`ScanContext`). -/
structure ScanContext where
  IncludeComments : Bool
  IncludeWhitespace : Bool
  deriving DecidableEq, Repr

/-- A scan error, from `internal/scan/scan.go` (`ScanError`). -/
structure ScanErrorS where
  Message : String
  Line : Nat
  Lexme : String
  deriving DecidableEq, Repr

/-- Reconstruction instrumentation: one piece of consumed source text —
either an emitted token or a chunk of dropped whitespace or comment
text. -/
inductive Piece where
  | tok (t : Token)
  | drop (cs : List Char)
  deriving DecidableEq, Repr

/-- The text a piece contributes to reconstruction: the lexeme of a token,
the raw characters of a dropped chunk. -/
def Piece.text : Piece → List Char
  | .tok t => t.lexme.data
  | .drop cs => cs

/-- Concatenated text of a piece list. -/
def piecesText (ps : List Piece) : List Char :=
  (ps.map Piece.text).flatten

/-- The tokens among a list of pieces, in order. -/
def piecesTokens (ps : List Piece) : List Token :=
  ps.filterMap (fun p => match p with | .tok t => some t | .drop _ => none)

/-- The scanner state, from `internal/scan/scan.go` (struct `scanner`).
The source names the cursor `tokenStart` and the start position of the
current token `tokenEnd`; those names are kept.  The emitted tokens are
carried inside `pieces` (see `Scanner.tokens`); `reported` accumulates the
calls to the `report` callback; `panicked` records an index out of range
that would crash the Go program; `outOfFuel` marks an exhausted fuel
budget in the loop embeddings (shown unreachable for the budgets used).
The keyword table of `newScanner` is the constant `keywords` below. -/
structure Scanner where
  src : List Char
  tokenStart : Nat
  tokenEnd : Nat
  line : Nat
  context : ScanContext
  reported : List ScanErrorS
  scanErrOccured : Bool
  pieces : List Piece
  panicked : Bool
  outOfFuel : Bool
  deriving DecidableEq, Repr

/-- The token list of the scanner state: the emitted tokens in order
(`scanner.tokens` in the source; dropped text and the piece structure are
instrumentation). -/
def Scanner.tokens (s : Scanner) : List Token :=
  piecesTokens s.pieces

/-- The keyword table built by `newScanner`. -/
def keywords : List (String × TokenType) :=
  [("class", .CLASS), ("and", .AND), ("else", .ELSE), ("false", .FALSE),
   ("for", .FOR), ("fun", .FUN), ("if", .IF), ("nil", .NIL), ("or", .OR),
   ("print", .PRINT), ("return", .RETURN), ("super", .SUPER),
   ("this", .THIS), ("true", .TRUE), ("var", .VAR), ("while", .WHILE),
   ("break", .BREAK)]

/-- Constructor `newScanner(source, report, context)`. -/
def newScanner (source : List Char) (context : ScanContext) : Scanner :=
  ⟨source, 0, 0, 1, context, [], false, [], false, false⟩

/-- Function `atEndOfFile`. -/
def atEndOfFile (s : Scanner) : Bool :=
  s.tokenStart ≥ s.src.length

/-- Function `advance`: step the cursor and return the character it
passed.  The Go code reads `s.src[s.tokenStart-1]` after the increment,
which panics when the old cursor is past the end; that read is recorded in
`panicked` and the returned character defaults to NUL. -/
def advance (s : Scanner) : Scanner × Char :=
  ({s with tokenStart := s.tokenStart + 1,
           panicked := s.panicked || decide (s.tokenStart ≥ s.src.length)},
   s.src.getD s.tokenStart nulChar)

/-- Function `peek`: the character at the cursor, NUL at end of input. -/
def peek (s : Scanner) : Char :=
  if atEndOfFile s then nulChar else s.src.getD s.tokenStart nulChar

/-- Function `peekNext`. -/
def peekNext (s : Scanner) : Char :=
  if s.tokenStart + 1 ≥ s.src.length then nulChar
  else s.src.getD (s.tokenStart + 1) nulChar

/-- Function `match`: consume the expected character if it is next
(`matchC` because `match` is reserved in Lean). -/
def matchC (s : Scanner) (expected : Char) : Scanner × Bool :=
  if atEndOfFile s then (s, false)
  else if peek s ≠ expected then (s, false)
  else ((advance s).1, true)

/-- Function `getLexme(s, startOffset, endOffset)`: the source slice
`src[tokenEnd+startOffset : tokenStart+endOffset]`, empty when the guard
of the source rejects the bounds. -/
def getLexme (s : Scanner) (startOffset endOffset : Int) : List Char :=
  let a : Int := (s.tokenEnd : Int) + startOffset
  let b : Int := (s.tokenStart : Int) + endOffset
  if a < 0 ∨ b > (s.src.length : Int) ∨ a > b then []
  else (s.src.drop a.toNat).take (b - a).toNat

/-- The chunk of source text consumed by the current token: from
`tokenEnd` to the cursor. -/
def chunk (s : Scanner) : List Char :=
  (s.src.drop s.tokenEnd).take (s.tokenStart - s.tokenEnd)

/-- The `appendToken` helper local to `scanToken`: emit a token whose
lexeme is `getLexme(s, 0, 0)` with no literal payload. -/
def appendToken (s : Scanner) (typ : TokenType) : Scanner :=
  {s with pieces := (s.pieces ++
    [.tok (NewToken typ (String.mk (getLexme s 0 0)) none s.line)])}

/-- The body of the line-comment loop in `handleComment`: advance while
`peek` is not NUL and the end of input is not reached (a line comment in
this scanner therefore runs to the end of the input, or to an embedded NUL
byte). -/
def commentLineLoop : Nat → Scanner → Scanner
  | 0, s => {s with outOfFuel := true}
  | fuel + 1, s =>
    if peek s ≠ nulChar ∧ ¬ atEndOfFile s then commentLineLoop fuel (advance s).1
    else s

/-- The body of the block-comment loop in `handleComment`: loop while
`peek ≠ '*'` AND `peekNext ≠ '/'`; inside, a newline bumps the line
counter and a NUL (end of input) returns `getLexme(s, 2, -1)` early.
The early-returned lexeme is the `some` result. -/
def commentBlockLoop : Nat → Scanner → Scanner × Option (List Char)
  | 0, s => ({s with outOfFuel := true}, none)
  | fuel + 1, s =>
    if peek s ≠ '*' ∧ peekNext s ≠ '/' then
      if peek s = '\n' then
        commentBlockLoop fuel (advance {s with line := s.line + 1}).1
      else if peek s = nulChar then (s, some (getLexme s 2 (-1)))
      else commentBlockLoop fuel (advance s).1
    else (s, none)

/-- Function `handleComment`: after the leading `/`, a second `/` starts a
line comment (lexeme `getLexme(2, -1)`), a `*` starts a block comment —
the loop above, then two unconditional `advance` calls (which read past
the end of input when the loop stopped with `*` as the final character)
and lexeme `getLexme(2, -2)`. -/
def handleComment (fuel : Nat) (s : Scanner) : Scanner × List Char :=
  match matchC s '/' with
  | (s1, true) =>
    (commentLineLoop fuel s1, getLexme (commentLineLoop fuel s1) 2 (-1))
  | (s1, false) =>
    match matchC s1 '*' with
    | (s2, true) =>
      match commentBlockLoop fuel s2 with
      | (s3, some lex) => (s3, lex)
      | (s3, none) =>
        ((advance (advance s3).1).1, getLexme (advance (advance s3).1).1 2 (-2))
    | (s2, false) => (s2, [])

/-- The loop of `handleString`: advance to the closing quote or the end of
input, counting newlines. -/
def stringLoop : Nat → Scanner → Scanner
  | 0, s => {s with outOfFuel := true}
  | fuel + 1, s =>
    if peek s ≠ '"' ∧ ¬ atEndOfFile s then
      stringLoop fuel
        (advance (if peek s = '\n' then {s with line := s.line + 1} else s)).1
    else s

/-- Function `handleString`: at end of input the string is unterminated
(the Go function returns `("", error)`); otherwise consume the closing
quote and return the content between the quotes, `getLexme(1, -1)`. -/
def handleString (fuel : Nat) (s : Scanner) : Scanner × Except String (List Char) :=
  if atEndOfFile (stringLoop fuel s) then
    (stringLoop fuel s, .error "unterminated string")
  else
    ((advance (stringLoop fuel s)).1,
     .ok (getLexme (advance (stringLoop fuel s)).1 1 (-1)))

/-- The digit loops of `handleNumber`. -/
def digitLoop : Nat → Scanner → Scanner
  | 0, s => {s with outOfFuel := true}
  | fuel + 1, s =>
    if (peek s).isDigit then digitLoop fuel (advance s).1 else s

/-- Function `handleNumber`: digits, then optionally a dot followed by at
least one digit and more digits.  (The source also parses the lexeme with
`strconv.ParseFloat`; the numeric value is not read by any checked
property, so the token keeps the lexeme characters as payload.) -/
def handleNumber (fuel : Nat) (s : Scanner) : Scanner :=
  if peek (digitLoop fuel s) = '.' ∧ (peekNext (digitLoop fuel s)).isDigit then
    digitLoop fuel (advance (digitLoop fuel s)).1
  else digitLoop fuel s

/-- The loop of `handleIdentifier`: letters, digits and underscores.
(`unicode.IsLetter`/`unicode.IsDigit` applied to single bytes are embedded
as the ASCII classifiers; the checked properties do not involve non-ASCII
identifiers.) -/
def identLoop : Nat → Scanner → Scanner
  | 0, s => {s with outOfFuel := true}
  | fuel + 1, s =>
    if (peek s).isDigit ∨ (peek s).isAlpha ∨ peek s = '_' then
      identLoop fuel (advance s).1
    else s

/-- Function `handleIdentifier`: scan the word, then look it up in the
keyword table; unmatched words are `IDENTIFIER`. -/
def handleIdentifier (fuel : Nat) (s : Scanner) : Scanner × TokenType × List Char :=
  match keywords.lookup (String.mk (getLexme (identLoop fuel s) 0 0)) with
  | some typ => (identLoop fuel s, typ, getLexme (identLoop fuel s) 0 0)
  | none => (identLoop fuel s, .IDENTIFIER, getLexme (identLoop fuel s) 0 0)

/-- The whitespace arm shared by the `'\n'` fallthrough and the
`' '/'\r'/'\t'` cases of `scanToken`: emit a `WHITESPACE` token holding
the single character when the context asks for it, otherwise the character
is dropped text. -/
def whitespaceArm (s : Scanner) (c : Char) : Scanner :=
  if s.context.IncludeWhitespace then
    {s with pieces := (s.pieces ++
      [.tok (NewToken .WHITESPACE (String.mk [c]) none s.line)])}
  else
    {s with pieces := (s.pieces ++ [.drop (chunk s)])}

/-- The opening-brace and closing-brace characters. -/
def leftBraceChar : Char := Char.ofNat 123

/-- See `leftBraceChar`. -/
def rightBraceChar : Char := Char.ofNat 125

/-- The dispatch of `scanToken` on the consumed character `c`, over the
already-advanced state `s`: the `switch` of the source becomes a
conditional chain, arm for arm in source order. -/
def scanTokenC (fuel : Nat) (s : Scanner) (c : Char) : Scanner :=
  (if c = '(' then appendToken s .LEFT_PAREN
    else if c = ')' then appendToken s .RIGHT_PAREN
    else if c = leftBraceChar then appendToken s .LEFT_BRACE
    else if c = rightBraceChar then appendToken s .RIGHT_BRACE
    else if c = ',' then appendToken s .COMMA
    else if c = '.' then appendToken s .DOT
    else if c = '-' then appendToken s .MINUS
    else if c = ';' then appendToken s .SEMICOLON
    else if c = '+' then appendToken s .PLUS
    else if c = '*' then appendToken s .STAR
    else if c = ':' then appendToken s .COLON
    else if c = '?' then appendToken s .QUESTION
    else if c = '!' then
      (if (matchC s '=').2 then appendToken (matchC s '=').1 .BANG_EQUAL
       else appendToken (matchC s '=').1 .BANG)
    else if c = '=' then
      (if (matchC s '=').2 then appendToken (matchC s '=').1 .EQUAL_EQUAL
       else appendToken (matchC s '=').1 .EQUAL)
    else if c = '<' then
      (if (matchC s '=').2 then appendToken (matchC s '=').1 .LESS_EQUAL
       else appendToken (matchC s '=').1 .LESS)
    else if c = '>' then
      (if (matchC s '=').2 then appendToken (matchC s '=').1 .GREATER_EQUAL
       else appendToken (matchC s '=').1 .GREATER)
    else if c = '/' then
      (if peek s = '/' ∨ peek s = '*' then
        (match handleComment fuel s with
         | (s1, lexme) =>
           if s1.context.IncludeComments then
             {s1 with pieces := (s1.pieces ++
               [.tok (NewToken .COMMENT (String.mk lexme) none s1.line)])}
           else
             {s1 with pieces := (s1.pieces ++ [.drop (chunk s1)])})
      else
        appendToken s .SLASH)
    else if c = '\n' then whitespaceArm {s with line := s.line + 1} c
    else if c = ' ' ∨ c = '\r' ∨ c = '\t' then whitespaceArm s c
    else if c = '"' then
      (match handleString fuel s with
       | (s1, .error msg) =>
         {s1 with
           reported := (s1.reported ++ [ScanErrorS.mk msg s1.line ""]),
           scanErrOccured := true,
           pieces := (s1.pieces ++ [.tok (NewToken .ERROR "" none s1.line)])}
       | (s1, .ok lexme) =>
         {s1 with pieces := (s1.pieces ++
           [.tok (NewToken .STRING (String.mk lexme) (some (String.mk lexme))
             s1.line)])})
    else if c.isDigit then
      {(handleNumber fuel s) with
        pieces := ((handleNumber fuel s).pieces ++
          [.tok (NewToken .NUMBER
            (String.mk (getLexme (handleNumber fuel s) 0 0))
            (some (String.mk (getLexme (handleNumber fuel s) 0 0)))
            (handleNumber fuel s).line)])}
    else if c.isAlpha ∨ c = '_' then
      (match handleIdentifier fuel s with
       | (s1, typ, lexme) =>
         {s1 with pieces := (s1.pieces ++
           [.tok (NewToken typ (String.mk lexme) (some (String.mk lexme))
             s1.line)])})
    else
      {s with
        reported := (s.reported ++
          [ScanErrorS.mk ("unexpected character " ++ String.mk [c]) s.line
            (String.mk (getLexme s 0 0))]),
        scanErrOccured := true,
        pieces := (s.pieces ++
          [.tok (NewToken .ERROR (String.mk (getLexme s 0 0)) none s.line)])})

/-- Function `scanToken`: advance past one character and dispatch on itsel
(see `scanTokenC`). -/
def scanToken (fuel : Nat) (s0 : Scanner) : Scanner :=
  scanTokenC fuel (advance s0).1 (advance s0).2

/-- The loop of `Scan`: while not at the end of input, reset `tokenEnd` to
the cursor and run `scanToken`. -/
def scanLoop : Nat → Scanner → Scanner
  | 0, s => if atEndOfFile s then s else {s with outOfFuel := true}
  | fuel + 1, s =>
    if ¬ atEndOfFile s then
      scanLoop fuel (scanToken (s.src.length + 1) {s with tokenEnd := s.tokenStart})
    else s

/-- Function `Scan(source, report, context)`: run the loop and append the
final `EOF` token.  The Go function returns `(s.tokens, nil)`; the
constant `nil` error result is stated by `Scan_returns_nil_error`. -/
def Scan (source : List Char) (context : ScanContext) : Scanner :=
  {(scanLoop (source.length + 1) (newScanner source context)) with
    pieces := ((scanLoop (source.length + 1) (newScanner source context)).pieces ++
      [.tok (NewToken .EOF "" none
        (scanLoop (source.length + 1) (newScanner source context)).line)])}

/-- The value `Scan` returns: the token list together with the error
result, which the source builds as the literal `nil`. -/
def ScanReturn (source : List Char) (context : ScanContext) :
    List Token × Option String :=
  ((Scan source context).tokens, none)

theorem take_drop_telescope {α : Type} (l : List α) (a b : Nat) (hab : a ≤ b) :
    (l.drop a).take (b - a) ++ l.drop b = l.drop a := by
  have h : l.drop b = (l.drop a).drop (b - a) := by
    rw [List.drop_drop]
    congr 1
    omega
  rw [h, List.take_append_drop]

/-- Fields of the scanner state that the inner loops and handlers never
touch: everything except the cursor, the line counter and (for the
block-comment trailing advances) the panic flag. -/
def LoopFixed (s r : Scanner) : Prop :=
  r.src = s.src ∧ r.tokenEnd = s.tokenEnd ∧ r.context = s.context ∧
  r.pieces = s.pieces ∧ r.reported = s.reported ∧
  r.scanErrOccured = s.scanErrOccured ∧ r.outOfFuel = s.outOfFuel

theorem LoopFixed.refl (s : Scanner) : LoopFixed s s :=
  ⟨rfl, rfl, rfl, rfl, rfl, rfl, rfl⟩

theorem LoopFixed.trans {s t r : Scanner} (h1 : LoopFixed s t)
    (h2 : LoopFixed t r) : LoopFixed s r := by
  obtain ⟨a1, a2, a3, a4, a5, a6, a7⟩ := h1
  obtain ⟨b1, b2, b3, b4, b5, b6, b7⟩ := h2
  exact ⟨b1.trans a1, b2.trans a2, b3.trans a3, b4.trans a4, b5.trans a5,
    b6.trans a6, b7.trans a7⟩

theorem advance_fixed (s : Scanner) :
    LoopFixed s (advance s).1 ∧ (advance s).1.tokenStart = s.tokenStart + 1 := by
  refine ⟨⟨rfl, rfl, rfl, rfl, rfl, rfl, rfl⟩, rfl⟩

theorem advance_panicked (s : Scanner) (h : s.tokenStart < s.src.length) :
    (advance s).1.panicked = s.panicked := by
  simp [advance]
  omega

theorem peek_lt_of_ne_nul (s : Scanner) (h : peek s ≠ nulChar) :
    s.tokenStart < s.src.length := by
  by_cases hend : s.tokenStart < s.src.length
  · exact hend
  · exfalso
    apply h
    have : atEndOfFile s = true := by
      simp [atEndOfFile]
      omega
    simp [peek, this]

theorem nul_not_digit : nulChar.isDigit = false := by decide

theorem nul_not_alpha : nulChar.isAlpha = false := by decide

theorem nul_not_underscore : ¬ (nulChar = '_') := by decide

theorem peek_lt_of_digit (s : Scanner) (h : (peek s).isDigit) :
    s.tokenStart < s.src.length := by
  apply peek_lt_of_ne_nul
  intro hn
  rw [hn, nul_not_digit] at h
  exact Bool.noConfusion h

theorem digitLoop_spec : ∀ (fuel : Nat) (s : Scanner),
    s.src.length - s.tokenStart < fuel → s.tokenStart ≤ s.src.length →
    LoopFixed s (digitLoop fuel s) ∧
    (digitLoop fuel s).panicked = s.panicked ∧
    s.tokenStart ≤ (digitLoop fuel s).tokenStart ∧
    (digitLoop fuel s).tokenStart ≤ s.src.length
  | 0, s => by omega
  | fuel + 1, s => by
    intro hf hle
    by_cases hd : (peek s).isDigit
    · have hlt := peek_lt_of_digit s hd
      have hadv := advance_fixed s
      have hpan := advance_panicked s hlt
      have hrec := digitLoop_spec fuel (advance s).1
        (by rw [hadv.1.1, hadv.2]; omega) (by rw [hadv.1.1, hadv.2]; omega)
      rw [digitLoop, if_pos hd]
      refine ⟨hadv.1.trans hrec.1, ?_, ?_, ?_⟩
      · rw [hrec.2.1, hpan]
      · have h1 := hrec.2.2.1
        rw [hadv.2] at h1
        omega
      · have h2 := hrec.2.2.2
        rw [hadv.1.1] at h2
        exact h2
    · rw [digitLoop, if_neg hd]
      exact ⟨LoopFixed.refl s, rfl, le_refl _, hle⟩

theorem identLoop_spec : ∀ (fuel : Nat) (s : Scanner),
    s.src.length - s.tokenStart < fuel → s.tokenStart ≤ s.src.length →
    LoopFixed s (identLoop fuel s) ∧
    (identLoop fuel s).panicked = s.panicked ∧
    s.tokenStart ≤ (identLoop fuel s).tokenStart ∧
    (identLoop fuel s).tokenStart ≤ s.src.length
  | 0, s => by omega
  | fuel + 1, s => by
    intro hf hle
    by_cases hd : (peek s).isDigit ∨ (peek s).isAlpha ∨ peek s = '_'
    · have hlt : s.tokenStart < s.src.length := by
        apply peek_lt_of_ne_nul
        intro hn
        rw [hn] at hd
        rcases hd with h | h | h
        · rw [nul_not_digit] at h; exact Bool.noConfusion h
        · rw [nul_not_alpha] at h; exact Bool.noConfusion h
        · exact nul_not_underscore h
      have hadv := advance_fixed s
      have hpan := advance_panicked s hlt
      have hrec := identLoop_spec fuel (advance s).1
        (by rw [hadv.1.1, hadv.2]; omega) (by rw [hadv.1.1, hadv.2]; omega)
      rw [identLoop, if_pos hd]
      refine ⟨hadv.1.trans hrec.1, ?_, ?_, ?_⟩
      · rw [hrec.2.1, hpan]
      · have h1 := hrec.2.2.1
        rw [hadv.2] at h1
        omega
      · have h2 := hrec.2.2.2
        rw [hadv.1.1] at h2
        exact h2
    · rw [identLoop, if_neg hd]
      exact ⟨LoopFixed.refl s, rfl, le_refl _, hle⟩

theorem commentLineLoop_spec : ∀ (fuel : Nat) (s : Scanner),
    s.src.length - s.tokenStart < fuel → s.tokenStart ≤ s.src.length →
    LoopFixed s (commentLineLoop fuel s) ∧
    (commentLineLoop fuel s).panicked = s.panicked ∧
    s.tokenStart ≤ (commentLineLoop fuel s).tokenStart ∧
    (commentLineLoop fuel s).tokenStart ≤ s.src.length
  | 0, s => by omega
  | fuel + 1, s => by
    intro hf hle
    by_cases hd : peek s ≠ nulChar ∧ ¬ atEndOfFile s
    · have hlt : s.tokenStart < s.src.length := peek_lt_of_ne_nul s hd.1
      have hadv := advance_fixed s
      have hpan := advance_panicked s hlt
      have hrec := commentLineLoop_spec fuel (advance s).1
        (by rw [hadv.1.1, hadv.2]; omega) (by rw [hadv.1.1, hadv.2]; omega)
      rw [commentLineLoop, if_pos hd]
      refine ⟨hadv.1.trans hrec.1, ?_, ?_, ?_⟩
      · rw [hrec.2.1, hpan]
      · have h1 := hrec.2.2.1
        rw [hadv.2] at h1
        omega
      · have h2 := hrec.2.2.2
        rw [hadv.1.1] at h2
        exact h2
    · rw [commentLineLoop, if_neg hd]
      exact ⟨LoopFixed.refl s, rfl, le_refl _, hle⟩

theorem stringLoop_spec : ∀ (fuel : Nat) (s : Scanner),
    s.src.length - s.tokenStart < fuel → s.tokenStart ≤ s.src.length →
    LoopFixed s (stringLoop fuel s) ∧
    (stringLoop fuel s).panicked = s.panicked ∧
    s.tokenStart ≤ (stringLoop fuel s).tokenStart ∧
    (stringLoop fuel s).tokenStart ≤ s.src.length
  | 0, s => by omega
  | fuel + 1, s => by
    intro hf hle
    by_cases hd : peek s ≠ '"' ∧ ¬ atEndOfFile s
    · have hlt : s.tokenStart < s.src.length := by
        have := hd.2
        simp [atEndOfFile] at this
        omega
      rw [stringLoop, if_pos hd]
      set s1 := if peek s = '\n' then {s with line := s.line + 1} else s with hs1
      have hfix1 : LoopFixed s s1 ∧ s1.tokenStart = s.tokenStart ∧
          s1.src = s.src ∧ s1.panicked = s.panicked := by
        rw [hs1]
        by_cases hn : peek s = '\n'
        · rw [if_pos hn]
          exact ⟨⟨rfl, rfl, rfl, rfl, rfl, rfl, rfl⟩, rfl, rfl, rfl⟩
        · rw [if_neg hn]
          exact ⟨LoopFixed.refl s, rfl, rfl, rfl⟩
      have hlt1 : s1.tokenStart < s1.src.length := by
        rw [hfix1.2.1, hfix1.2.2.1]
        exact hlt
      have hadv := advance_fixed s1
      have hpan := advance_panicked s1 hlt1
      have hrec := stringLoop_spec fuel (advance s1).1
        (by rw [hadv.1.1, hadv.2, hfix1.2.1, hfix1.2.2.1]; omega)
        (by rw [hadv.1.1, hadv.2, hfix1.2.1, hfix1.2.2.1]; omega)
      refine ⟨(hfix1.1.trans hadv.1).trans hrec.1, ?_, ?_, ?_⟩
      · rw [hrec.2.1, hpan, hfix1.2.2.2]
      · have h1 := hrec.2.2.1
        rw [hadv.2, hfix1.2.1] at h1
        omega
      · have h2 := hrec.2.2.2
        rw [hadv.1.1, hfix1.2.2.1] at h2
        exact h2
    · rw [stringLoop, if_neg hd]
      exact ⟨LoopFixed.refl s, rfl, le_refl _, hle⟩

theorem commentBlockLoop_spec : ∀ (fuel : Nat) (s : Scanner),
    s.src.length - s.tokenStart < fuel → s.tokenStart ≤ s.src.length →
    LoopFixed s (commentBlockLoop fuel s).1 ∧
    (commentBlockLoop fuel s).1.panicked = s.panicked ∧
    s.tokenStart ≤ (commentBlockLoop fuel s).1.tokenStart ∧
    (commentBlockLoop fuel s).1.tokenStart ≤ s.src.length
  | 0, s => by omega
  | fuel + 1, s => by
    intro hf hle
    by_cases hd : peek s ≠ '*' ∧ peekNext s ≠ '/'
    · by_cases hn : peek s = '\n'
      · have hlt : s.tokenStart < s.src.length := by
          apply peek_lt_of_ne_nul
          rw [hn]
          decide
        have hlt2 : ({s with line := s.line + 1} : Scanner).tokenStart <
            ({s with line := s.line + 1} : Scanner).src.length := hlt
        have hadv := advance_fixed {s with line := s.line + 1}
        have hpan := advance_panicked {s with line := s.line + 1} hlt2
        have hrec := commentBlockLoop_spec fuel
            (advance {s with line := s.line + 1}).1
          (by rw [hadv.1.1, hadv.2]; simp; omega)
          (by rw [hadv.1.1, hadv.2]; simp; omega)
        rw [commentBlockLoop, if_pos hd, if_pos hn]
        have hfix0 : LoopFixed s {s with line := s.line + 1} :=
          ⟨rfl, rfl, rfl, rfl, rfl, rfl, rfl⟩
        refine ⟨(hfix0.trans hadv.1).trans hrec.1, ?_, ?_, ?_⟩
        · rw [hrec.2.1, hpan]
        · have h1 := hrec.2.2.1
          rw [hadv.2] at h1
          simp at h1
          omega
        · have h2 := hrec.2.2.2
          rw [hadv.1.1] at h2
          simpa using h2
      · by_cases hz : peek s = nulChar
        · rw [commentBlockLoop, if_pos hd, if_neg hn, if_pos hz]
          exact ⟨LoopFixed.refl s, rfl, le_refl _, hle⟩
        · have hlt : s.tokenStart < s.src.length := peek_lt_of_ne_nul s hz
          have hadv := advance_fixed s
          have hpan := advance_panicked s hlt
          have hrec := commentBlockLoop_spec fuel (advance s).1
            (by rw [hadv.1.1, hadv.2]; omega)
            (by rw [hadv.1.1, hadv.2]; omega)
          rw [commentBlockLoop, if_pos hd, if_neg hn, if_neg hz]
          refine ⟨hadv.1.trans hrec.1, ?_, ?_, ?_⟩
          · rw [hrec.2.1, hpan]
          · have h1 := hrec.2.2.1
            rw [hadv.2] at h1
            omega
          · have h2 := hrec.2.2.2
            rw [hadv.1.1] at h2
            exact h2
    · rw [commentBlockLoop, if_neg hd]
      exact ⟨LoopFixed.refl s, rfl, le_refl _, hle⟩

theorem matchC_spec (s : Scanner) (c : Char) (hle : s.tokenStart ≤ s.src.length) :
    LoopFixed s (matchC s c).1 ∧ (matchC s c).1.panicked = s.panicked ∧
    s.tokenStart ≤ (matchC s c).1.tokenStart ∧
    (matchC s c).1.tokenStart ≤ s.src.length := by
  unfold matchC
  by_cases h1 : atEndOfFile s = true
  · rw [if_pos h1]
    exact ⟨LoopFixed.refl s, rfl, le_refl _, hle⟩
  · rw [if_neg h1]
    have hlt : s.tokenStart < s.src.length := by
      simp [atEndOfFile] at h1
      omega
    by_cases h2 : peek s ≠ c
    · rw [if_pos h2]
      exact ⟨LoopFixed.refl s, rfl, le_refl _, hle⟩
    · rw [if_neg h2]
      refine ⟨(advance_fixed s).1, advance_panicked s hlt, ?_, ?_⟩
      · rw [(advance_fixed s).2]
        omega
      · rw [(advance_fixed s).2]
        omega

theorem getLexme_eq_chunk (s : Scanner) (h1 : s.tokenEnd ≤ s.tokenStart)
    (h2 : s.tokenStart ≤ s.src.length) : getLexme s 0 0 = chunk s := by
  unfold getLexme chunk
  have ha : ¬ (((s.tokenEnd : Int) + 0 < 0) ∨
      ((s.tokenStart : Int) + 0 > (s.src.length : Int)) ∨
      ((s.tokenEnd : Int) + 0 > (s.tokenStart : Int) + 0)) := by
    push_neg
    refine ⟨by omega, by omega, by omega⟩
  rw [if_neg ha]
  have e1 : ((s.tokenEnd : Int) + 0).toNat = s.tokenEnd := by omega
  have e2 : (((s.tokenStart : Int) + 0) - ((s.tokenEnd : Int) + 0)).toNat
      = s.tokenStart - s.tokenEnd := by omega
  rw [e1, e2]

theorem chunk_single (s : Scanner) (hpos : s.tokenEnd = s.tokenStart)
    (hlt : s.tokenStart < s.src.length) :
    chunk (advance s).1 = [s.src.getD s.tokenStart nulChar] := by
  unfold chunk advance
  simp only [hpos]
  have h1 : s.tokenStart + 1 - s.tokenStart = 1 := by omega
  rw [h1]
  rw [List.getD_eq_getElem s.src nulChar hlt]
  rw [List.drop_eq_getElem_cons hlt]
  rfl

theorem handleString_spec (fuel : Nat) (s : Scanner)
    (hf : s.src.length - s.tokenStart < fuel) (hle : s.tokenStart ≤ s.src.length) :
    LoopFixed s (handleString fuel s).1 ∧
    (handleString fuel s).1.panicked = s.panicked ∧
    s.tokenStart ≤ (handleString fuel s).1.tokenStart ∧
    (handleString fuel s).1.tokenStart ≤ s.src.length := by
  have hl := stringLoop_spec fuel s hf hle
  unfold handleString
  by_cases hend : atEndOfFile (stringLoop fuel s) = true
  · rw [if_pos hend]
    exact hl
  · have hlt : (stringLoop fuel s).tokenStart < (stringLoop fuel s).src.length := by
      simp [atEndOfFile] at hend
      omega
    rw [if_neg hend]
    have hadv := advance_fixed (stringLoop fuel s)
    have hpan := advance_panicked (stringLoop fuel s) hlt
    refine ⟨hl.1.trans hadv.1, ?_, ?_, ?_⟩
    · rw [hpan, hl.2.1]
    · rw [hadv.2]
      have := hl.2.2.1
      omega
    · rw [hadv.2]
      have h2 := hlt
      rw [hl.1.1] at h2
      omega

theorem handleNumber_spec (fuel : Nat) (s : Scanner)
    (hf : s.src.length - s.tokenStart < fuel) (hle : s.tokenStart ≤ s.src.length) :
    LoopFixed s (handleNumber fuel s) ∧
    (handleNumber fuel s).panicked = s.panicked ∧
    s.tokenStart ≤ (handleNumber fuel s).tokenStart ∧
    (handleNumber fuel s).tokenStart ≤ s.src.length := by
  have h1 := digitLoop_spec fuel s hf hle
  unfold handleNumber
  by_cases hdot : peek (digitLoop fuel s) = '.' ∧
      (peekNext (digitLoop fuel s)).isDigit = true
  · rw [if_pos hdot]
    have hlt : (digitLoop fuel s).tokenStart < (digitLoop fuel s).src.length := by
      apply peek_lt_of_ne_nul
      rw [hdot.1]
      decide
    have hadv := advance_fixed (digitLoop fuel s)
    have hpan := advance_panicked (digitLoop fuel s) hlt
    have hlen : (digitLoop fuel s).src.length = s.src.length := by
      rw [h1.1.1]
    have h2 := digitLoop_spec fuel (advance (digitLoop fuel s)).1
      (by rw [hadv.1.1, hadv.2, hlen]; omega)
      (by rw [hadv.1.1, hadv.2, hlen]; rw [hlen] at hlt; omega)
    refine ⟨(h1.1.trans hadv.1).trans h2.1, ?_, ?_, ?_⟩
    · rw [h2.2.1, hpan, h1.2.1]
    · have := h2.2.2.1
      rw [hadv.2] at this
      have := h1.2.2.1
      omega
    · have := h2.2.2.2
      rw [hadv.1.1, hlen] at this
      exact this
  · rw [if_neg hdot]
    exact h1

theorem handleIdentifier_spec (fuel : Nat) (s : Scanner)
    (hf : s.src.length - s.tokenStart < fuel) (hle : s.tokenStart ≤ s.src.length) :
    LoopFixed s (handleIdentifier fuel s).1 ∧
    (handleIdentifier fuel s).1.panicked = s.panicked ∧
    s.tokenStart ≤ (handleIdentifier fuel s).1.tokenStart ∧
    (handleIdentifier fuel s).1.tokenStart ≤ s.src.length ∧
    (handleIdentifier fuel s).2.2 = getLexme (identLoop fuel s) 0 0 ∧
    (handleIdentifier fuel s).1 = identLoop fuel s := by
  have h1 := identLoop_spec fuel s hf hle
  unfold handleIdentifier
  cases hkw : keywords.lookup (String.mk (getLexme (identLoop fuel s) 0 0)) with
  | none => exact ⟨h1.1, h1.2.1, h1.2.2.1, h1.2.2.2, rfl, rfl⟩
  | some typ => exact ⟨h1.1, h1.2.1, h1.2.2.1, h1.2.2.2, rfl, rfl⟩

theorem handleComment_spec (fuel : Nat) (s : Scanner)
    (hf : s.src.length - s.tokenStart < fuel) (hle : s.tokenStart ≤ s.src.length) :
    LoopFixed s (handleComment fuel s).1 ∧
    s.tokenStart ≤ (handleComment fuel s).1.tokenStart := by
  unfold handleComment
  have hm1 := matchC_spec s '/' hle
  cases hmc : matchC s '/' with
  | mk s1 b1 =>
    rw [hmc] at hm1
    dsimp only at hm1
    cases b1 with
    | true =>
      dsimp only
      have hlen : s1.src.length = s.src.length := by rw [hm1.1.1]
      have hl := commentLineLoop_spec fuel s1
        (by rw [hlen]; have := hm1.2.2.1; omega)
        (by rw [hlen]; exact hm1.2.2.2)
      refine ⟨hm1.1.trans hl.1, ?_⟩
      have h1 := hl.2.2.1
      have h2 := hm1.2.2.1
      omega
    | false =>
      dsimp only
      have hm2 := matchC_spec s1 '*' (by rw [hm1.1.1]; exact hm1.2.2.2)
      cases hmc2 : matchC s1 '*' with
      | mk s2 b2 =>
        rw [hmc2] at hm2
        dsimp only at hm2
        cases b2 with
        | true =>
          dsimp only
          have hlen2 : s2.src.length = s.src.length := by
            rw [hm2.1.1, hm1.1.1]
          have hb := commentBlockLoop_spec fuel s2
            (by rw [hlen2]; have := hm1.2.2.1; have := hm2.2.2.1; omega)
            (by rw [hm2.1.1]; exact hm2.2.2.2)
          cases hbl : commentBlockLoop fuel s2 with
          | mk s3 res =>
            rw [hbl] at hb
            dsimp only at hb
            cases res with
            | some lex =>
              dsimp only
              refine ⟨(hm1.1.trans hm2.1).trans hb.1, ?_⟩
              have f1 := hm1.2.2.1
              have f2 := hm2.2.2.1
              have f3 := hb.2.2.1
              omega
            | none =>
              dsimp only
              have ha1 := advance_fixed s3
              have ha2 := advance_fixed (advance s3).1
              refine ⟨(((hm1.1.trans hm2.1).trans hb.1).trans ha1.1).trans
                ha2.1, ?_⟩
              rw [ha2.2, ha1.2]
              have f1 := hm1.2.2.1
              have f2 := hm2.2.2.1
              have f3 := hb.2.2.1
              omega
        | false =>
          dsimp only
          refine ⟨hm1.1.trans hm2.1, ?_⟩
          have f1 := hm1.2.2.1
          have f2 := hm2.2.2.1
          omega

/-- Count of synthetic `ERROR` tokens among a list of pieces. -/
def countErrTokens (ps : List Piece) : Nat :=
  (piecesTokens ps).countP (fun t => decide (t.type = .ERROR))

/-- What one `scanToken` step guarantees, from the state at the start of
the step (whose `tokenEnd` equals the cursor): the source and options are
untouched, the budget flag is untouched, the cursor strictly advances, the
step appends pieces and reports — never an `EOF` token, and exactly one
report per appended `ERROR` token — sets `scanErrOccured` exactly when it
reports, and (with both include options off and no double quote in the
source) the text of the appended pieces is exactly the consumed source
chunk. -/
def StepOK (s0 r : Scanner) : Prop :=
  r.src = s0.src ∧ r.context = s0.context ∧ r.outOfFuel = s0.outOfFuel ∧
  s0.tokenStart < r.tokenStart ∧
  ∃ ps rs, r.pieces = s0.pieces ++ ps ∧ r.reported = s0.reported ++ rs ∧
    (∀ t ∈ piecesTokens ps, t.type ≠ .EOF) ∧
    countErrTokens ps = rs.length ∧
    r.scanErrOccured = (s0.scanErrOccured || decide (rs ≠ [])) ∧
    (s0.context = ⟨false, false⟩ → (∀ ch ∈ s0.src, ch ≠ '"') →
      piecesText ps = (s0.src.drop s0.tokenEnd).take (r.tokenStart - s0.tokenEnd))

theorem stepOK_tok (s0 s1 : Scanner) (t : Token)
    (hfix : LoopFixed s0 s1) (hgt : s0.tokenStart < s1.tokenStart)
    (hEOF : t.type ≠ .EOF) (hERR : t.type ≠ .ERROR)
    (hrecon : s0.context = ⟨false, false⟩ → (∀ ch ∈ s0.src, ch ≠ '"') →
      t.lexme.data = (s0.src.drop s0.tokenEnd).take (s1.tokenStart - s0.tokenEnd)) :
    StepOK s0 {s1 with pieces := (s1.pieces ++ [.tok t])} := by
  obtain ⟨f1, f2, f3, f4, f5, f6, f7⟩ := hfix
  refine ⟨f1, f3, f7, hgt, [.tok t], [], ?_, ?_, ?_, ?_, ?_, ?_⟩
  · show s1.pieces ++ [.tok t] = s0.pieces ++ [.tok t]
    rw [f4]
  · show s1.reported = s0.reported ++ []
    rw [f5, List.append_nil]
  · intro t' ht'
    simp only [piecesTokens, List.filterMap] at ht'
    simp at ht'
    rw [ht']
    exact hEOF
  · simp [countErrTokens, piecesTokens, hERR]
  · show s1.scanErrOccured = _
    rw [f6]
    simp
  · intro hctx hq
    show piecesText [.tok t] = _
    simp only [piecesText, Piece.text, List.map, List.flatten]
    rw [List.append_nil]
    exact hrecon hctx hq

theorem stepOK_drop (s0 s1 : Scanner) (cs : List Char)
    (hfix : LoopFixed s0 s1) (hgt : s0.tokenStart < s1.tokenStart)
    (hchunk : cs = (s0.src.drop s0.tokenEnd).take (s1.tokenStart - s0.tokenEnd)) :
    StepOK s0 {s1 with pieces := (s1.pieces ++ [.drop cs])} := by
  obtain ⟨f1, f2, f3, f4, f5, f6, f7⟩ := hfix
  refine ⟨f1, f3, f7, hgt, [.drop cs], [], ?_, ?_, ?_, ?_, ?_, ?_⟩
  · show s1.pieces ++ [.drop cs] = s0.pieces ++ [.drop cs]
    rw [f4]
  · show s1.reported = s0.reported ++ []
    rw [f5, List.append_nil]
  · intro t' ht'
    simp [piecesTokens] at ht'
  · simp [countErrTokens, piecesTokens]
  · show s1.scanErrOccured = _
    rw [f6]
    simp
  · intro hctx hq
    show piecesText [.drop cs] = _
    simp only [piecesText, Piece.text, List.map, List.flatten]
    rw [List.append_nil]
    exact hchunk

theorem stepOK_err (s0 s1 : Scanner) (t : Token) (e : ScanErrorS)
    (hfix : LoopFixed s0 s1) (hgt : s0.tokenStart < s1.tokenStart)
    (hERR : t.type = .ERROR)
    (hrecon : s0.context = ⟨false, false⟩ → (∀ ch ∈ s0.src, ch ≠ '"') →
      t.lexme.data = (s0.src.drop s0.tokenEnd).take (s1.tokenStart - s0.tokenEnd)) :
    StepOK s0 {s1 with
      reported := (s1.reported ++ [e]),
      scanErrOccured := true,
      pieces := (s1.pieces ++ [.tok t])} := by
  obtain ⟨f1, f2, f3, f4, f5, f6, f7⟩ := hfix
  refine ⟨f1, f3, f7, hgt, [.tok t], [e], ?_, ?_, ?_, ?_, ?_, ?_⟩
  · show s1.pieces ++ [.tok t] = s0.pieces ++ [.tok t]
    rw [f4]
  · show s1.reported ++ [e] = s0.reported ++ [e]
    rw [f5]
  · intro t' ht'
    simp [piecesTokens] at ht'
    rw [ht', hERR]
    intro hcon
    exact TokenType.noConfusion hcon
  · simp [countErrTokens, piecesTokens, hERR]
  · show true = _
    simp
  · intro hctx hq
    show piecesText [.tok t] = _
    simp only [piecesText, Piece.text, List.map, List.flatten]
    rw [List.append_nil]
    exact hrecon hctx hq

theorem advance_state (s0 : Scanner) :
    LoopFixed s0 (advance s0).1 ∧ (advance s0).1.tokenStart = s0.tokenStart + 1 ∧
    (advance s0).1.tokenEnd = s0.tokenEnd ∧ (advance s0).1.src = s0.src :=
  ⟨(advance_fixed s0).1, rfl, rfl, rfl⟩

theorem stepOK_appendToken (s0 s1 : Scanner) (typ : TokenType)
    (hpos : s0.tokenEnd = s0.tokenStart)
    (hfix : LoopFixed s0 s1) (hgt : s0.tokenStart < s1.tokenStart)
    (hle : s1.tokenStart ≤ s1.src.length)
    (hEOF : typ ≠ .EOF) (hERR : typ ≠ .ERROR) :
    StepOK s0 (appendToken s1 typ) := by
  apply stepOK_tok s0 s1 _ hfix hgt hEOF hERR
  intro hctx hq
  show (String.mk (getLexme s1 0 0)).data = _
  have h1 : s1.tokenEnd ≤ s1.tokenStart := by
    rw [hfix.2.1, hpos]
    omega
  rw [show (String.mk (getLexme s1 0 0)).data = getLexme s1 0 0 from rfl]
  rw [getLexme_eq_chunk s1 h1 hle]
  unfold chunk
  rw [hfix.1, hfix.2.1]

theorem stepOK_lexTok (s0 s1 : Scanner) (typ : TokenType) (lit : Option String)
    (hpos : s0.tokenEnd = s0.tokenStart)
    (hfix : LoopFixed s0 s1) (hgt : s0.tokenStart < s1.tokenStart)
    (hle : s1.tokenStart ≤ s1.src.length)
    (hEOF : typ ≠ .EOF) (hERR : typ ≠ .ERROR) :
    StepOK s0 {s1 with pieces := (s1.pieces ++
      [.tok (NewToken typ (String.mk (getLexme s1 0 0)) lit s1.line)])} := by
  apply stepOK_tok s0 s1 _ hfix hgt hEOF hERR
  intro hctx hq
  show (String.mk (getLexme s1 0 0)).data = _
  have h1 : s1.tokenEnd ≤ s1.tokenStart := by
    rw [hfix.2.1, hpos]
    omega
  rw [show (String.mk (getLexme s1 0 0)).data = getLexme s1 0 0 from rfl]
  rw [getLexme_eq_chunk s1 h1 hle]
  unfold chunk
  rw [hfix.1, hfix.2.1]

theorem stepOK_whitespace (s0 s1 : Scanner) (c : Char)
    (hfix : LoopFixed s0 s1) (hgt : s0.tokenStart < s1.tokenStart) :
    StepOK s0 (whitespaceArm s1 c) := by
  unfold whitespaceArm
  by_cases hw : s1.context.IncludeWhitespace = true
  · rw [if_pos hw]
    refine stepOK_tok s0 s1 _ hfix hgt ?_ ?_ ?_
    · intro h
      exact TokenType.noConfusion h
    · intro h
      exact TokenType.noConfusion h
    · intro hctx hq
      exfalso
      rw [hfix.2.2.1, hctx] at hw
      exact Bool.noConfusion hw
  · rw [if_neg hw]
    apply stepOK_drop s0 s1 _ hfix hgt
    unfold chunk
    rw [hfix.1, hfix.2.1]

theorem keywords_lookup_ok (k : String) (typ : TokenType)
    (h : keywords.lookup k = some typ) : typ ≠ .EOF ∧ typ ≠ .ERROR := by
  simp only [keywords, List.lookup] at h
  repeat' split at h
  all_goals first
    | exact Option.noConfusion h
    | (obtain rfl := Option.some.inj h; exact ⟨by decide, by decide⟩)

theorem handleIdentifier_type_ok (fuel : Nat) (s : Scanner) :
    (handleIdentifier fuel s).2.1 ≠ .EOF ∧
    (handleIdentifier fuel s).2.1 ≠ .ERROR := by
  unfold handleIdentifier
  cases hkw : keywords.lookup (String.mk (getLexme (identLoop fuel s) 0 0)) with
  | none =>
    dsimp only
    exact ⟨by decide, by decide⟩
  | some typ =>
    dsimp only
    exact keywords_lookup_ok _ typ hkw

theorem stepOK_matchEq (s0 s : Scanner) (t1 t2 : TokenType)
    (hpos : s0.tokenEnd = s0.tokenStart) (hfix : LoopFixed s0 s)
    (hs : s.tokenStart = s0.tokenStart + 1) (hle : s.tokenStart ≤ s.src.length)
    (h1e : t1 ≠ .EOF) (h1r : t1 ≠ .ERROR)
    (h2e : t2 ≠ .EOF) (h2r : t2 ≠ .ERROR) :
    StepOK s0 (if (matchC s '=').2 then appendToken (matchC s '=').1 t1
      else appendToken (matchC s '=').1 t2) := by
  have hm := matchC_spec s '=' hle
  have hgt1 : s0.tokenStart < (matchC s '=').1.tokenStart := by
    have := hm.2.2.1
    omega
  have hle1 : (matchC s '=').1.tokenStart ≤ (matchC s '=').1.src.length := by
    rw [hm.1.1]
    exact hm.2.2.2
  by_cases hb : (matchC s '=').2 = true
  · rw [if_pos hb]
    exact stepOK_appendToken s0 _ t1 hpos (hfix.trans hm.1) hgt1 hle1 h1e h1r
  · rw [if_neg hb]
    exact stepOK_appendToken s0 _ t2 hpos (hfix.trans hm.1) hgt1 hle1 h2e h2r

theorem scanTokenC_spec (fuel : Nat) (s0 s : Scanner) (c : Char)
    (hpos : s0.tokenEnd = s0.tokenStart)
    (hfix : LoopFixed s0 s)
    (hs : s.tokenStart = s0.tokenStart + 1)
    (hle : s.tokenStart ≤ s.src.length)
    (hcmem : c ∈ s0.src)
    (hf : s.src.length - s.tokenStart < fuel) :
    StepOK s0 (scanTokenC fuel s c) := by
  have hgt : s0.tokenStart < s.tokenStart := by omega
  unfold scanTokenC
  by_cases h1 : c = '('
  · rw [if_pos h1]
    exact stepOK_appendToken s0 s _ hpos hfix hgt hle (by decide) (by decide)
  rw [if_neg h1]
  by_cases h2 : c = ')'
  · rw [if_pos h2]
    exact stepOK_appendToken s0 s _ hpos hfix hgt hle (by decide) (by decide)
  rw [if_neg h2]
  by_cases h3 : c = leftBraceChar
  · rw [if_pos h3]
    exact stepOK_appendToken s0 s _ hpos hfix hgt hle (by decide) (by decide)
  rw [if_neg h3]
  by_cases h4 : c = rightBraceChar
  · rw [if_pos h4]
    exact stepOK_appendToken s0 s _ hpos hfix hgt hle (by decide) (by decide)
  rw [if_neg h4]
  by_cases h5 : c = ','
  · rw [if_pos h5]
    exact stepOK_appendToken s0 s _ hpos hfix hgt hle (by decide) (by decide)
  rw [if_neg h5]
  by_cases h6 : c = '.'
  · rw [if_pos h6]
    exact stepOK_appendToken s0 s _ hpos hfix hgt hle (by decide) (by decide)
  rw [if_neg h6]
  by_cases h7 : c = '-'
  · rw [if_pos h7]
    exact stepOK_appendToken s0 s _ hpos hfix hgt hle (by decide) (by decide)
  rw [if_neg h7]
  by_cases h8 : c = ';'
  · rw [if_pos h8]
    exact stepOK_appendToken s0 s _ hpos hfix hgt hle (by decide) (by decide)
  rw [if_neg h8]
  by_cases h9 : c = '+'
  · rw [if_pos h9]
    exact stepOK_appendToken s0 s _ hpos hfix hgt hle (by decide) (by decide)
  rw [if_neg h9]
  by_cases h10 : c = '*'
  · rw [if_pos h10]
    exact stepOK_appendToken s0 s _ hpos hfix hgt hle (by decide) (by decide)
  rw [if_neg h10]
  by_cases h11 : c = ':'
  · rw [if_pos h11]
    exact stepOK_appendToken s0 s _ hpos hfix hgt hle (by decide) (by decide)
  rw [if_neg h11]
  by_cases h12 : c = '?'
  · rw [if_pos h12]
    exact stepOK_appendToken s0 s _ hpos hfix hgt hle (by decide) (by decide)
  rw [if_neg h12]
  by_cases h13 : c = '!'
  · rw [if_pos h13]
    exact stepOK_matchEq s0 s _ _ hpos hfix hs hle
      (by decide) (by decide) (by decide) (by decide)
  rw [if_neg h13]
  by_cases h14 : c = '='
  · rw [if_pos h14]
    exact stepOK_matchEq s0 s _ _ hpos hfix hs hle
      (by decide) (by decide) (by decide) (by decide)
  rw [if_neg h14]
  by_cases h15 : c = '<'
  · rw [if_pos h15]
    exact stepOK_matchEq s0 s _ _ hpos hfix hs hle
      (by decide) (by decide) (by decide) (by decide)
  rw [if_neg h15]
  by_cases h16 : c = '>'
  · rw [if_pos h16]
    exact stepOK_matchEq s0 s _ _ hpos hfix hs hle
      (by decide) (by decide) (by decide) (by decide)
  rw [if_neg h16]
  by_cases h17 : c = '/'
  · rw [if_pos h17]
    by_cases hcm : peek s = '/' ∨ peek s = '*'
    · rw [if_pos hcm]
      have hhc := handleComment_spec fuel s hf hle
      cases hmc : handleComment fuel s with
      | mk s1 lexme =>
        rw [hmc] at hhc
        dsimp only at hhc
        dsimp only
        have hgt1 : s0.tokenStart < s1.tokenStart := by
          have := hhc.2
          omega
        by_cases hic : s1.context.IncludeComments = true
        · rw [if_pos hic]
          refine stepOK_tok s0 s1 _ (hfix.trans hhc.1) hgt1 ?_ ?_ ?_
          · intro h
            exact TokenType.noConfusion h
          · intro h
            exact TokenType.noConfusion h
          · intro hctx hq
            exfalso
            rw [(hfix.trans hhc.1).2.2.1, hctx] at hic
            exact Bool.noConfusion hic
        · rw [if_neg hic]
          apply stepOK_drop s0 s1 _ (hfix.trans hhc.1) hgt1
          unfold chunk
          rw [(hfix.trans hhc.1).1, (hfix.trans hhc.1).2.1]
    · rw [if_neg hcm]
      exact stepOK_appendToken s0 s _ hpos hfix hgt hle (by decide) (by decide)
  rw [if_neg h17]
  by_cases h18 : c = '\n'
  · rw [if_pos h18]
    exact stepOK_whitespace s0 {s with line := s.line + 1} c
      (hfix.trans ⟨rfl, rfl, rfl, rfl, rfl, rfl, rfl⟩) hgt
  rw [if_neg h18]
  by_cases h19 : c = ' ' ∨ c = '\r' ∨ c = '\t'
  · rw [if_pos h19]
    exact stepOK_whitespace s0 s c hfix hgt
  rw [if_neg h19]
  by_cases h20 : c = '"'
  · rw [if_pos h20]
    have hhs := handleString_spec fuel s hf hle
    cases hmc : handleString fuel s with
    | mk s1 res =>
      rw [hmc] at hhs
      dsimp only at hhs
      have hgt1 : s0.tokenStart < s1.tokenStart := by
        have := hhs.2.2.1
        omega
      cases res with
      | error msg =>
        dsimp only
        refine stepOK_err s0 s1 _ _ (hfix.trans hhs.1) hgt1 rfl ?_
        intro hctx hq
        exact absurd h20 (hq c hcmem)
      | ok lexme =>
        dsimp only
        refine stepOK_tok s0 s1 _ (hfix.trans hhs.1) hgt1 ?_ ?_ ?_
        · intro h
          exact TokenType.noConfusion h
        · intro h
          exact TokenType.noConfusion h
        · intro hctx hq
          exact absurd h20 (hq c hcmem)
  rw [if_neg h20]
  by_cases h21 : c.isDigit = true
  · rw [if_pos h21]
    have hhn := handleNumber_spec fuel s hf hle
    have hgt1 : s0.tokenStart < (handleNumber fuel s).tokenStart := by
      have := hhn.2.2.1
      omega
    have hle1 : (handleNumber fuel s).tokenStart ≤
        (handleNumber fuel s).src.length := by
      rw [hhn.1.1]
      exact hhn.2.2.2
    exact stepOK_lexTok s0 (handleNumber fuel s) .NUMBER _ hpos
      (hfix.trans hhn.1) hgt1 hle1 (by decide) (by decide)
  rw [if_neg h21]
  by_cases h22 : c.isAlpha = true ∨ c = '_'
  · rw [if_pos h22]
    have hhi := handleIdentifier_spec fuel s hf hle
    have htyp := handleIdentifier_type_ok fuel s
    cases hmi : handleIdentifier fuel s with
    | mk s1 p =>
      cases p with
      | mk typ lexme =>
        rw [hmi] at hhi htyp
        dsimp only at hhi htyp
        dsimp only
        obtain ⟨hfx, hpan, hstart, hlen, hlex, hsid⟩ := hhi
        subst hsid
        have hgt1 : s0.tokenStart < (identLoop fuel s).tokenStart := by omega
        have hle1 : (identLoop fuel s).tokenStart ≤
            (identLoop fuel s).src.length := by
          rw [hfx.1]
          exact hlen
        rw [hlex]
        exact stepOK_lexTok s0 (identLoop fuel s) typ _ hpos
          (hfix.trans hfx) hgt1 hle1 htyp.1 htyp.2
  rw [if_neg h22]
  refine stepOK_err s0 s _ _ hfix hgt rfl ?_
  intro hctx hq
  show (String.mk (getLexme s 0 0)).data = _
  have h1 : s.tokenEnd ≤ s.tokenStart := by
    rw [hfix.2.1, hpos]
    omega
  rw [show (String.mk (getLexme s 0 0)).data = getLexme s 0 0 from rfl]
  rw [getLexme_eq_chunk s h1 hle]
  unfold chunk
  rw [hfix.1, hfix.2.1]

theorem scanToken_spec (fuel : Nat) (s0 : Scanner)
    (hpos : s0.tokenEnd = s0.tokenStart)
    (hlt : s0.tokenStart < s0.src.length)
    (hf : s0.src.length - (s0.tokenStart + 1) < fuel) :
    StepOK s0 (scanToken fuel s0) := by
  unfold scanToken
  have hmem : (advance s0).2 ∈ s0.src := by
    show s0.src.getD s0.tokenStart nulChar ∈ s0.src
    rw [List.getD_eq_getElem s0.src nulChar hlt]
    exact List.getElem_mem hlt
  exact scanTokenC_spec fuel s0 (advance s0).1 (advance s0).2 hpos
    (advance_fixed s0).1 (advance_fixed s0).2
    (by rw [(advance_fixed s0).2, (advance_state s0).2.2.2]; omega)
    hmem
    (by rw [(advance_fixed s0).2, (advance_state s0).2.2.2]; omega)

theorem piecesTokens_append (a b : List Piece) :
    piecesTokens (a ++ b) = piecesTokens a ++ piecesTokens b := by
  simp [piecesTokens]

theorem piecesText_append (a b : List Piece) :
    piecesText (a ++ b) = piecesText a ++ piecesText b := by
  simp [piecesText]

theorem countErrTokens_append (a b : List Piece) :
    countErrTokens (a ++ b) = countErrTokens a + countErrTokens b := by
  simp [countErrTokens, piecesTokens]

/-- The invariant of the scan loop: the source and options are preserved,
the fuel budget is never exhausted beyond the initial flag, the loop stops
at or past the end of input, the pieces and reports accumulate with no
`EOF` token and one report per `ERROR` token, the error flag is set
exactly when the loop reported, and (with both include options off and a
quote-free source) the accumulated piece text is the whole remaining
source. -/
theorem scanLoop_spec : ∀ (fuel : Nat) (s : Scanner),
    s.src.length - s.tokenStart < fuel →
    (scanLoop fuel s).src = s.src ∧
    (scanLoop fuel s).context = s.context ∧
    (scanLoop fuel s).outOfFuel = s.outOfFuel ∧
    (scanLoop fuel s).src.length ≤ (scanLoop fuel s).tokenStart ∧
    ∃ ps rs,
      (scanLoop fuel s).pieces = s.pieces ++ ps ∧
      (scanLoop fuel s).reported = s.reported ++ rs ∧
      (∀ t ∈ piecesTokens ps, t.type ≠ .EOF) ∧
      countErrTokens ps = rs.length ∧
      (scanLoop fuel s).scanErrOccured
        = (s.scanErrOccured || decide (rs ≠ [])) ∧
      (s.context = ⟨false, false⟩ → (∀ ch ∈ s.src, ch ≠ '"') →
        piecesText ps = s.src.drop s.tokenStart)
  | 0, s => by
    intro hf
    omega
  | fuel + 1, s => by
    intro hf
    by_cases hend : atEndOfFile s = true
    · rw [scanLoop, if_neg (not_not_intro hend)]
      simp only [atEndOfFile, ge_iff_le, decide_eq_true_eq] at hend
      refine ⟨rfl, rfl, rfl, hend, [], [], (List.append_nil _).symm,
        (List.append_nil _).symm, ?_, rfl, by simp, ?_⟩
      · intro t ht
        simp [piecesTokens] at ht
      · intro _ _
        simp [piecesText, List.drop_eq_nil_of_le hend]
    · rw [scanLoop, if_pos hend]
      have hlt : s.tokenStart < s.src.length := by
        simp only [atEndOfFile, ge_iff_le, decide_eq_true_eq] at hend
        omega
      have hstep := scanToken_spec (s.src.length + 1)
        {s with tokenEnd := s.tokenStart} rfl hlt
        (by show s.src.length - (s.tokenStart + 1) < s.src.length + 1; omega)
      obtain ⟨e1, e2, e3, e4, ps1, rs1, p1, p2, p3, p4, p5, p6⟩ := hstep
      have e1x : (scanToken (s.src.length + 1)
          {s with tokenEnd := s.tokenStart}).src = s.src := e1
      have e2x : (scanToken (s.src.length + 1)
          {s with tokenEnd := s.tokenStart}).context = s.context := e2
      have e3x : (scanToken (s.src.length + 1)
          {s with tokenEnd := s.tokenStart}).outOfFuel = s.outOfFuel := e3
      have e4x : s.tokenStart < (scanToken (s.src.length + 1)
          {s with tokenEnd := s.tokenStart}).tokenStart := e4
      have hrec := scanLoop_spec fuel
        (scanToken (s.src.length + 1) {s with tokenEnd := s.tokenStart})
        (by rw [e1x]; omega)
      obtain ⟨f1, f2, f3, f4, ps2, rs2, q1, q2, q3, q4, q5, q6⟩ := hrec
      refine ⟨f1.trans e1x, f2.trans e2x, f3.trans e3x, f4,
        ps1 ++ ps2, rs1 ++ rs2, ?_, ?_, ?_, ?_, ?_, ?_⟩
      · have p1x : (scanToken (s.src.length + 1)
            {s with tokenEnd := s.tokenStart}).pieces
            = s.pieces ++ ps1 := p1
        rw [q1, p1x, List.append_assoc]
      · have p2x : (scanToken (s.src.length + 1)
            {s with tokenEnd := s.tokenStart}).reported
            = s.reported ++ rs1 := p2
        rw [q2, p2x, List.append_assoc]
      · intro t ht
        rw [piecesTokens_append] at ht
        rcases List.mem_append.mp ht with h | h
        · exact p3 t h
        · exact q3 t h
      · rw [countErrTokens_append, p4, q4, List.length_append]
      · have p5x : (scanToken (s.src.length + 1)
            {s with tokenEnd := s.tokenStart}).scanErrOccured
            = (s.scanErrOccured || decide (rs1 ≠ [])) := p5
        rw [q5, p5x]
        cases rs1 <;> cases rs2 <;> simp
      · intro hctx hq
        have p6x : piecesText ps1 = (s.src.drop s.tokenStart).take
            ((scanToken (s.src.length + 1)
              {s with tokenEnd := s.tokenStart}).tokenStart - s.tokenStart) :=
          p6 hctx hq
        have q6x : piecesText ps2 = s.src.drop (scanToken (s.src.length + 1)
            {s with tokenEnd := s.tokenStart}).tokenStart := by
          have := q6 (by rw [e2x]; exact hctx) (by rw [e1x]; exact hq)
          rw [e1x] at this
          exact this
        rw [piecesText_append, p6x, q6x]
        exact take_drop_telescope s.src s.tokenStart _ (le_of_lt e4x)

/-- What `Scan` guarantees on every input: the fuel budget suffices
(`outOfFuel` stays `false`), the token list ends in exactly one trailing
`EOF`, the `ERROR` tokens are in bijection with the reported scan errors,
`scanErrOccured` is set exactly when something was reported, and — with
both include options off and no double quote in the source — the
concatenated text of the pieces reconstructs the source exactly. -/
theorem Scan_spec (source : List Char) (ctx : ScanContext) :
    (Scan source ctx).outOfFuel = false ∧
    (∃ ts, (Scan source ctx).tokens
        = ts ++ [NewToken .EOF "" none (Scan source ctx).line] ∧
      ∀ t ∈ ts, t.type ≠ .EOF) ∧
    countErrTokens (Scan source ctx).pieces
      = (Scan source ctx).reported.length ∧
    ((Scan source ctx).scanErrOccured = true ↔
      (Scan source ctx).reported ≠ []) ∧
    (ctx = ⟨false, false⟩ → (∀ ch ∈ source, ch ≠ '"') →
      piecesText (Scan source ctx).pieces = source) := by
  have hL := scanLoop_spec (source.length + 1) (newScanner source ctx)
    (by show source.length - 0 < source.length + 1; omega)
  obtain ⟨g1, g2, g3, g4, ps, rs, r1, r2, r3, r4, r5, r6⟩ := hL
  have r1x : (scanLoop (source.length + 1) (newScanner source ctx)).pieces
      = ps := r1
  have r2x : (scanLoop (source.length + 1) (newScanner source ctx)).reported
      = rs := r2
  have r5x : (scanLoop (source.length + 1) (newScanner source ctx)).scanErrOccured
      = decide (rs ≠ []) := by
    have : (scanLoop (source.length + 1) (newScanner source ctx)).scanErrOccured
        = (false || decide (rs ≠ [])) := r5
    simpa using this
  refine ⟨g3, ⟨piecesTokens ps, ?_, r3⟩, ?_, ?_, ?_⟩
  · show piecesTokens ((scanLoop (source.length + 1)
        (newScanner source ctx)).pieces ++ _) = _
    rw [piecesTokens_append, r1x]
    rfl
  · show countErrTokens ((scanLoop (source.length + 1)
        (newScanner source ctx)).pieces ++ _)
      = (scanLoop (source.length + 1) (newScanner source ctx)).reported.length
    rw [countErrTokens_append, r1x, r2x, r4]
    simp [countErrTokens, piecesTokens, NewToken]
  · show (scanLoop (source.length + 1)
        (newScanner source ctx)).scanErrOccured = true ↔
      (scanLoop (source.length + 1) (newScanner source ctx)).reported ≠ []
    rw [r5x, r2x]
    simp
  · intro hctx hq
    have r6x : piecesText ps = source :=
      r6 (show ctx = ⟨false, false⟩ from hctx)
        (show ∀ ch ∈ source, ch ≠ '"' from hq)
    show piecesText ((scanLoop (source.length + 1)
        (newScanner source ctx)).pieces ++ _) = source
    rw [piecesText_append, r1x, r6x]
    simp [piecesText, Piece.text, NewToken]

/-- C2, amended: for every source text and scan options the scanner loop
stays within its fuel budget; and whenever the scan completes without
the recorded out-of-range read (`panicked` — on sources such as `/**`
the block-comment loop stops with `*` as the final character and
`handleComment` then advances twice unconditionally, so the Go scanner
reads past the end of the source slice, crashes and returns nothing, see
`Scan_panics_on_unterminated_block_comment`), the returned token list
ends in exactly one trailing `EOF` token and — when comment and
whitespace tokens are not requested and the source contains no double
quote — the concatenated text of the emitted tokens and the dropped
whitespace and comment chunks reconstructs the source exactly.  (The
unrestricted reconstruction of the claim is false: a string token's
lexeme omits the surrounding quotes, see the counterexample.) -/
theorem C2_scan_terminates_eof_reconstructs (source : List Char)
    (ctx : ScanContext) :
    (Scan source ctx).outOfFuel = false ∧
    ((Scan source ctx).panicked = false →
      ∃ ts, (Scan source ctx).tokens
          = ts ++ [NewToken .EOF "" none (Scan source ctx).line] ∧
        ∀ t ∈ ts, t.type ≠ .EOF) ∧
    ((Scan source ctx).panicked = false →
      ctx = ⟨false, false⟩ → (∀ ch ∈ source, ch ≠ '"') →
      piecesText (Scan source ctx).pieces = source) :=
  ⟨(Scan_spec source ctx).1,
   fun _ => (Scan_spec source ctx).2.1,
   fun _ hctx hq => (Scan_spec source ctx).2.2.2.2 hctx hq⟩

/-- Witness for C2 at a concrete quote-free source on which the scanner
does not panic: the pieces of scanning `1+2 // ok` concatenate back to
the source text. -/
theorem C2_scan_terminates_eof_reconstructs_witness :
    (Scan ("1+2 // ok".toList) ⟨false, false⟩).panicked = false ∧
    piecesText (Scan ("1+2 // ok".toList) ⟨false, false⟩).pieces
      = "1+2 // ok".toList :=
  ⟨by decide,
   (C2_scan_terminates_eof_reconstructs _ _).2.2 (by decide) rfl (by decide)⟩

/-- The panic path excluded by the amended C2: scanning `/**` reads
`src[3]` of a three-character source (`handleComment`'s two
unconditional `advance` calls after the block-comment loop), which
panics in Go; the embedding records the out-of-range read. -/
theorem Scan_panics_on_unterminated_block_comment :
    (Scan ['/', '*', '*'] ⟨false, false⟩).panicked = true := by
  decide

/-- Counterexample to C2 as stated: scanning the three-character source
`"a"` (one string literal) yields pieces whose concatenated text is the
single character `a` — `handleString` builds the string token's lexeme
with `getLexme(1, -1)`, which strips the quotes — so the concatenation of
lexemes and dropped text does not reconstruct the source. -/
theorem C2_counterexample_string_lexeme :
    piecesText (Scan [Char.ofNat 34, 'a', Char.ofNat 34]
        ⟨false, false⟩).pieces
      ≠ [Char.ofNat 34, 'a', Char.ofNat 34] := by
  decide

/-- C9: for every input and options the error component of the value
`Scan` returns is `nil`; scanning failures surface only through the
report callback and a synthetic `ERROR` token in the stream — the `ERROR`
tokens are in bijection with the reports — and the internal
`scanErrOccured` flag is set exactly when something was reported. -/
theorem C9_scan_error_result_nil (source : List Char) (ctx : ScanContext) :
    (ScanReturn source ctx).2 = none ∧
    countErrTokens (Scan source ctx).pieces
      = (Scan source ctx).reported.length ∧
    ((Scan source ctx).scanErrOccured = true ↔
      (Scan source ctx).reported ≠ []) :=
  ⟨rfl, (Scan_spec source ctx).2.2.1, (Scan_spec source ctx).2.2.2.1⟩

end Scan

namespace G3

/-- Value kind tags, `LoxValueType` of `internal/ast/value.go`. -/
inductive LoxValueType where
  | BOOLEAN | NUMBER | NIL | STRING | OBJECT | FUNCTION | TYPE
  deriving DecidableEq, Repr

/-- The native functions installed by `Interpret` in
`internal/ast/interpreter.go`: `clock` and `type`.  A
`NativeFunction.Function` Go closure is identified by this tag and
interpreted by `nativeImpl`. -/
inductive NativeTag where
  | clock | typeFn
  deriving DecidableEq, Repr

mutual

/-- Runtime values, `LoxValue` of `internal/ast/value.go`.  `LoxFunction`
embeds its `FunctionStmt` (parameters and body; the name token is read by
no evaluation path and is dropped) and the closure environment pointer
(`Closure *Environment`) as an index into the interpreter state's
environment store.  `NativeFunction` carries `paramLen` and the tag of
its Go closure.  Numbers are exact rationals standing for the source's
float64; no checked property depends on rounding. -/
inductive LoxValue where
  | LoxBoolean (b : Bool)
  | LoxNumber (n : ℚ)
  | LoxString (s : GoString)
  | LoxNil
  | LoxObject
  | LoxFunction (parameters : List Token) (body : List Stmt) (closure : Nat)
  | NativeFunction (paramLen : Nat) (tag : NativeTag)
  | LoxType (typ : LoxValueType)

/-- Expressions of the interpreted generation (`BinaryExpr{Left, Op,
Right}`, `GroupingExpr{Expr}`, `LiteralExpr{Value}`, `UnaryExpr{Op,
Right}`, `TernaryExpr{Condition, Left, Right}`, `VariableExpr{Name}`,
`AssignExpr{Name, Value}`, `FunctionExpr{Parameters, Body}`,
`CallStmt{Callee, Paren, Arguments}` — a call is an expression in this
source — and `NothingExpr`), as constructed by `internal/parse/parse.go`
and printed by `internal/ast/debug_print.go`. -/
inductive Expr where
  | BinaryExpr (left : Expr) (op : Token) (right : Expr)
  | GroupingExpr (expr : Expr)
  | LiteralExpr (value : LoxValue)
  | UnaryExpr (op : Token) (right : Expr)
  | TernaryExpr (condition : Expr) (left : Expr) (right : Expr)
  | VariableExpr (name : Token)
  | AssignExpr (name : Token) (value : Expr)
  | FunctionExpr (parameters : List Token) (body : List Stmt)
  | CallStmt (callee : Expr) (paren : Token) (arguments : List Expr)
  | NothingExpr

/-- Statements of the interpreted generation; interface-typed `nil`
fields of the Go structs are `Option`s. -/
inductive Stmt where
  | ExpressionStmt (expr : Expr)
  | PrintStmt (expr : Expr)
  | VarStmt (name : Token) (initializer : Option Expr)
  | BlockStmt (statements : List Stmt)
  | IfStmt (condition : Expr) (thenBranch : Stmt) (elseBranch : Option Stmt)
  | WhileStmt (condition : Expr) (body : Stmt)
  | BreakStmt
  | ReturnStmt (expr : Option Expr)
  | FunctionStmt (name : Token) (parameters : List Token) (body : List Stmt)

end

/-- `LoxValue.Type()` from `internal/ast/value.go`; both function kinds
answer `FUNCTION`. -/
def LoxValue.Type : LoxValue → LoxValueType
  | .LoxBoolean _ => .BOOLEAN
  | .LoxNumber _ => .NUMBER
  | .LoxString _ => .STRING
  | .LoxNil => .NIL
  | .LoxObject => .OBJECT
  | .LoxFunction _ _ _ => .FUNCTION
  | .NativeFunction _ _ => .FUNCTION
  | .LoxType _ => .TYPE

/-- `isTruthy` from `internal/ast/value.go`: a boolean is its value, nil
is false, everything else is true. -/
def isTruthy : LoxValue → Bool
  | .LoxBoolean b => b
  | .LoxNil => false
  | _ => true

/-- `equals` from `internal/ast/value.go`: different kinds are unequal;
booleans, numbers and strings compare by value; `nil` and objects are
always equal to their own kind; types compare by tag; functions (the
`default` arm of the switch) are never equal. -/
def equals (v1 v2 : LoxValue) : Bool :=
  if v1.Type ≠ v2.Type then false
  else match v1, v2 with
    | .LoxBoolean a, .LoxBoolean b => a == b
    | .LoxNumber a, .LoxNumber b => a == b
    | .LoxString a, .LoxString b => a == b
    | .LoxNil, .LoxNil => true
    | .LoxObject, .LoxObject => true
    | .LoxType a, .LoxType b => a == b
    | _, _ => false

/-- The `Callable` interface of `internal/ast/value.go`: exactly the two
function values implement it. -/
def isCallable : LoxValue → Bool
  | .LoxFunction _ _ _ => true
  | .NativeFunction _ _ => true
  | _ => false

/-- `Arity()`: the parameter count for `LoxFunction`, `paramLen` for
`NativeFunction` (no other value reaches it). -/
def Arity : LoxValue → Nat
  | .LoxFunction params _ _ => params.length
  | .NativeFunction n _ => n
  | _ => 0

/-- The error channel of evaluation (`error` results in the source):
`RuntimeError`, the `BreakError` and `ReturnError` control signals
(evaluate.go uses error types for them), a Go panic (the unchecked
`arguments[i]` of `LoxFunction.Call`), and the exhausted fuel budget of
the embedding. -/
inductive EvalErr where
  | runtime (msg : GoString)
  | breakErr
  | returnErr (v : LoxValue)
  | goPanic (msg : GoString)
  | outOfFuel

/-- `NewRuntimeError` from `internal/ast/evaluate.go`. -/
def NewRuntimeError (msg : GoString) : EvalErr := .runtime msg

/-- One environment node, `Environment{enviornment, enclosing}` of
`internal/ast/environment.go` (the source spells the map field
`enviornment`).  Go reaches environments through heap pointers; here a
node is addressed by its index in the interpreter state's store. -/
structure Frame where
  enviornment : List (GoString × LoxValue)
  enclosing : Option Nat

/-- The package-level mutable state of `internal/ast/interpreter.go`: the
heap of environment nodes, the `global_env` and `current_env` pointers,
the `Locals` side table of resolved depths (keyed in the source by the
string serialization of the expression node; a variable expression
serializes to its name, so the name token keys it here), and the lines
written by `print` (the sink records the values printed; their textual
form is IEEE-754 float formatting, outside this embedding). -/
structure IState where
  frames : List Frame
  global_env : Nat
  current_env : Nat
  locals : List (Token × Nat)
  output : List LoxValue

/-- `NewEnvironment(enclosing)` from `internal/ast/environment.go`:
allocate a fresh empty environment; the new address and the grown
store. -/
def NewEnvironment (enclosing : Option Nat) (st : IState) : Nat × IState :=
  (st.frames.length, {st with frames := st.frames ++ [⟨[], enclosing⟩]})

/-- `define(name, value)` on an environment node (spec 4.4; called
`env.Define` by value.go and written directly by `addNativeFunction` in
interpreter.go): unconditionally write in the node's own map. -/
def envDefine (st : IState) (id : Nat) (name : GoString) (v : LoxValue) :
    IState :=
  match st.frames.get? id with
  | some f => {st with frames :=
      (st.frames.set id ⟨mapInsert f.enviornment name v, f.enclosing⟩)}
  | none => st

/-- Method `Environment.Get` from `internal/ast/environment.go`: read the
own map, else recurse into the enclosing environment, else fail
(\"undefined variable\", per spec 4.4).  The chain walk is fuelled. -/
def envGet : Nat → IState → Nat → GoString → Except EvalErr LoxValue
  | 0, _, _, _ => .error .outOfFuel
  | fuel + 1, st, id, name =>
    match st.frames.get? id with
    | none => .error (NewRuntimeError ("undefined variable " ++ name))
    | some f =>
      match f.enviornment.lookup name with
      | some v => .ok v
      | none =>
        match f.enclosing with
        | some up => envGet fuel st up name
        | none => .error (NewRuntimeError ("undefined variable " ++ name))

/-- Method `Environment.Assign` from `internal/ast/environment.go`:
rewrite in the nearest scope already holding the name, else fail. -/
def envAssign : Nat → IState → Nat → GoString → LoxValue →
    IState × Option EvalErr
  | 0, st, _, _, _ => (st, some .outOfFuel)
  | fuel + 1, st, id, name, v =>
    match st.frames.get? id with
    | none => (st, some (NewRuntimeError ("undefined variable " ++ name)))
    | some f =>
      if (f.enviornment.lookup name).isSome then
        ({st with frames :=
          (st.frames.set id ⟨mapInsert f.enviornment name v, f.enclosing⟩)},
         none)
      else
        match f.enclosing with
        | some up => envAssign fuel st up name v
        | none => (st, some (NewRuntimeError ("undefined variable " ++ name)))

/-- Modelled from the spec: the environment exactly `depth` scopes
outward from `id` (spec 4.4: `get_at`/`assign_at` reach without
searching). -/
def ancestor (st : IState) : Nat → Nat → Option Nat
  | 0, id => some id
  | d + 1, id =>
    match st.frames.get? id with
    | some f =>
      match f.enclosing with
      | some up => ancestor st d up
      | none => none
    | none => none

/-- Modelled from the spec: `get_at(depth, name)` (spec 4.4). -/
def envGetAt (st : IState) (depth id : Nat) (name : GoString) :
    Except EvalErr LoxValue :=
  match ancestor st depth id with
  | some aid =>
    match st.frames.get? aid with
    | some f =>
      match f.enviornment.lookup name with
      | some v => .ok v
      | none => .error (NewRuntimeError ("undefined variable " ++ name))
    | none => .error (NewRuntimeError ("undefined variable " ++ name))
  | none => .error (NewRuntimeError ("undefined variable " ++ name))

/-- Modelled from the spec: `assign_at(depth, name, value)` (spec
4.4). -/
def envAssignAt (st : IState) (depth id : Nat) (name : GoString)
    (v : LoxValue) : IState × Option EvalErr :=
  match ancestor st depth id with
  | some aid =>
    match st.frames.get? aid with
    | some f =>
      ({st with frames :=
        (st.frames.set aid ⟨mapInsert f.enviornment name v, f.enclosing⟩)},
       none)
    | none => (st, some (NewRuntimeError ("undefined variable " ++ name)))
  | none => (st, some (NewRuntimeError ("undefined variable " ++ name)))

/-- The Go closures of the two native functions (interpreter.go):
`clock` returns the wall-clock seconds — a value outside this embedding,
returned as the number 0; no checked property reads it — and `type`
returns the reified type of its argument (`AsType(args[0])`). -/
def nativeImpl : NativeTag → List LoxValue → Except EvalErr LoxValue
  | .clock, _ => .ok (.LoxNumber 0)
  | .typeFn, args =>
    match args with
    | a :: _ => .ok (.LoxType a.Type)
    | [] => .error (.goPanic "index out of range")

/-- `NativeFunction.Call` from `internal/ast/value.go` (lines 222-235):
an argument count different from the arity is a runtime error (`expected
%d arguments but got %d`) before the closure runs; a nil value with nil
error becomes `LoxNil` (unreachable for the two embedded natives). -/
def NativeFunctionCall (paramLen : Nat) (tag : NativeTag)
    (arguments : List LoxValue) (st : IState) :
    IState × Except EvalErr LoxValue :=
  if arguments.length ≠ paramLen then
    (st, .error (NewRuntimeError ("expected " ++ toString paramLen ++
      " arguments but got " ++ toString arguments.length)))
  else
    match nativeImpl tag arguments with
    | .ok v => (st, .ok v)
    | .error e => (st, .error e)

/-- Modelled from the spec (4.5): the non-logical binary operators.  `+`
is number addition or string concatenation; `-`, `*`, `/` require
numbers, `/` by zero is a runtime error; the comparisons require numbers
or (lexicographically) strings; `==` and `!=` use `equals` from
value.go. -/
def binaryOp (op : Token) (lv rv : LoxValue) : Except EvalErr LoxValue :=
  if op.type = .PLUS then
    match lv, rv with
    | .LoxNumber a, .LoxNumber b => .ok (.LoxNumber (a + b))
    | .LoxString a, .LoxString b => .ok (.LoxString (a ++ b))
    | _, _ =>
      .error (NewRuntimeError "operands must be two numbers or two strings")
  else if op.type = .MINUS then
    match lv, rv with
    | .LoxNumber a, .LoxNumber b => .ok (.LoxNumber (a - b))
    | _, _ => .error (NewRuntimeError "operands must be numbers")
  else if op.type = .STAR then
    match lv, rv with
    | .LoxNumber a, .LoxNumber b => .ok (.LoxNumber (a * b))
    | _, _ => .error (NewRuntimeError "operands must be numbers")
  else if op.type = .SLASH then
    match lv, rv with
    | .LoxNumber a, .LoxNumber b =>
      if b = 0 then .error (NewRuntimeError "division by zero")
      else .ok (.LoxNumber (a / b))
    | _, _ => .error (NewRuntimeError "operands must be numbers")
  else if op.type = .GREATER then
    match lv, rv with
    | .LoxNumber a, .LoxNumber b => .ok (.LoxBoolean (decide (b < a)))
    | .LoxString a, .LoxString b => .ok (.LoxBoolean (decide (b < a)))
    | _, _ => .error (NewRuntimeError "operands must be numbers")
  else if op.type = .GREATER_EQUAL then
    match lv, rv with
    | .LoxNumber a, .LoxNumber b => .ok (.LoxBoolean (decide (b ≤ a)))
    | .LoxString a, .LoxString b => .ok (.LoxBoolean (decide (b ≤ a)))
    | _, _ => .error (NewRuntimeError "operands must be numbers")
  else if op.type = .LESS then
    match lv, rv with
    | .LoxNumber a, .LoxNumber b => .ok (.LoxBoolean (decide (a < b)))
    | .LoxString a, .LoxString b => .ok (.LoxBoolean (decide (a < b)))
    | _, _ => .error (NewRuntimeError "operands must be numbers")
  else if op.type = .LESS_EQUAL then
    match lv, rv with
    | .LoxNumber a, .LoxNumber b => .ok (.LoxBoolean (decide (a ≤ b)))
    | .LoxString a, .LoxString b => .ok (.LoxBoolean (decide (a ≤ b)))
    | _, _ => .error (NewRuntimeError "operands must be numbers")
  else if op.type = .EQUAL_EQUAL then .ok (.LoxBoolean (equals lv rv))
  else if op.type = .BANG_EQUAL then .ok (.LoxBoolean (! equals lv rv))
  else .error (NewRuntimeError "unexpected binary operator")

mutual

/-- Modelled from the spec (4.5, expression semantics; the per-node
`Evaluate` methods of this generation are absent from src): literals are
their stored value, grouping is the inner value, `Nothing` is nil; unary
`-` requires a number and `!` negates truthiness; `and`/`or`
short-circuit on the left value; other binary operators evaluate left
then right and apply `binaryOp`; the ternary picks a branch by
truthiness; a variable with a resolved depth reads `get_at`, otherwise
the global environment; assignment evaluates the value, writes through
`assign_at` or the global assign, and yields the value; a function
expression captures the current environment; a call evaluates the
callee, then the arguments left-to-right, requires a callable, requires
the argument count to equal the arity (else runtime error), then
invokes. -/
def evalExpr : Nat → Expr → IState → IState × Except EvalErr LoxValue
  | 0, _, st => (st, .error .outOfFuel)
  | _ + 1, .LiteralExpr v, st => (st, .ok v)
  | fuel + 1, .GroupingExpr e, st => evalExpr fuel e st
  | _ + 1, .NothingExpr, st => (st, .ok .LoxNil)
  | fuel + 1, .UnaryExpr op r, st =>
    (match evalExpr fuel r st with
    | (st1, .error e) => (st1, .error e)
    | (st1, .ok rv) =>
      if op.type = .MINUS then
        (match rv with
        | .LoxNumber n => (st1, .ok (.LoxNumber (-n)))
        | _ => (st1, .error (NewRuntimeError "operand must be a number")))
      else if op.type = .BANG then
        (st1, .ok (.LoxBoolean (! isTruthy rv)))
      else (st1, .error (NewRuntimeError "unexpected unary operator")))
  | fuel + 1, .BinaryExpr l op r, st =>
    if op.type = .AND then
      (match evalExpr fuel l st with
      | (st1, .error e) => (st1, .error e)
      | (st1, .ok lv) =>
        if isTruthy lv then evalExpr fuel r st1 else (st1, .ok lv))
    else if op.type = .OR then
      (match evalExpr fuel l st with
      | (st1, .error e) => (st1, .error e)
      | (st1, .ok lv) =>
        if isTruthy lv then (st1, .ok lv) else evalExpr fuel r st1)
    else
      (match evalExpr fuel l st with
      | (st1, .error e) => (st1, .error e)
      | (st1, .ok lv) =>
        match evalExpr fuel r st1 with
        | (st2, .error e) => (st2, .error e)
        | (st2, .ok rv) => (st2, binaryOp op lv rv))
  | fuel + 1, .TernaryExpr c l r, st =>
    (match evalExpr fuel c st with
    | (st1, .error e) => (st1, .error e)
    | (st1, .ok cv) =>
      if isTruthy cv then evalExpr fuel l st1 else evalExpr fuel r st1)
  | fuel + 1, .VariableExpr name, st =>
    (match st.locals.lookup name with
    | some d => (st, envGetAt st d st.current_env name.lexme)
    | none => (st, envGet fuel st st.global_env name.lexme))
  | fuel + 1, .AssignExpr name value, st =>
    (match evalExpr fuel value st with
    | (st1, .error e) => (st1, .error e)
    | (st1, .ok v) =>
      match st1.locals.lookup name with
      | some d =>
        (match envAssignAt st1 d st1.current_env name.lexme v with
        | (st2, none) => (st2, .ok v)
        | (st2, some e) => (st2, .error e))
      | none =>
        (match envAssign fuel st1 st1.global_env name.lexme v with
        | (st2, none) => (st2, .ok v)
        | (st2, some e) => (st2, .error e)))
  | _ + 1, .FunctionExpr params body, st =>
    (st, .ok (.LoxFunction params body st.current_env))
  | fuel + 1, .CallStmt callee _ args, st =>
    (match evalExpr fuel callee st with
    | (st1, .error e) => (st1, .error e)
    | (st1, .ok cv) =>
      match evalArgs fuel args st1 with
      | (st2, .error e) => (st2, .error e)
      | (st2, .ok argv) =>
        if isCallable cv then
          if argv.length ≠ Arity cv then
            (st2, .error (NewRuntimeError ("expected " ++
              toString (Arity cv) ++ " arguments but got " ++
              toString argv.length)))
          else callValue fuel cv argv st2
        else (st2, .error (NewRuntimeError "can only call functions")))

/-- The argument loop of `Call` (spec: strictly left-to-right). -/
def evalArgs : Nat → List Expr → IState → IState × Except EvalErr (List LoxValue)
  | 0, _, st => (st, .error .outOfFuel)
  | _ + 1, [], st => (st, .ok [])
  | fuel + 1, e :: rest, st =>
    (match evalExpr fuel e st with
    | (st1, .error err) => (st1, .error err)
    | (st1, .ok v) =>
      match evalArgs fuel rest st1 with
      | (st2, .error err) => (st2, .error err)
      | (st2, .ok vs) => (st2, .ok (v :: vs)))

/-- Modelled from the spec (4.5 `Call`): dispatch on the callable
(`callee.(Callable).Call(args)`). -/
def callValue : Nat → LoxValue → List LoxValue → IState →
    IState × Except EvalErr LoxValue
  | 0, _, _, st => (st, .error .outOfFuel)
  | fuel + 1, .LoxFunction params body closure, argv, st =>
    LoxFunctionCall fuel params body closure argv st
  | _ + 1, .NativeFunction n tag, argv, st => NativeFunctionCall n tag argv st
  | _ + 1, _, _, st => (st, .error (NewRuntimeError "can only call functions"))

/-- `LoxFunction.Call` from `internal/ast/value.go` (lines 192-208):
allocate a parameters environment enclosing the captured closure and
define each parameter to `arguments[i]` — the Go loop indexes the
argument slice without a bounds check, so a missing argument is an
index-out-of-range panic — then run the body statements, catching a
`ReturnError` as the call's value; a body without `return` yields
`LoxNil`.  The parameters environment is never installed as the current
environment: the source runs the body with `stmt.Evaluate()` under the
caller's `current_env`, exactly as embedded here. -/
def LoxFunctionCall : Nat → List Token → List Stmt → Nat → List LoxValue →
    IState → IState × Except EvalErr LoxValue
  | 0, _, _, _, _, st => (st, .error .outOfFuel)
  | fuel + 1, params, body, closure, argv, st =>
    (match NewEnvironment (some closure) st with
    | (envId, st1) =>
      match defineParams fuel params 0 envId argv st1 with
      | (st2, some e) => (st2, .error e)
      | (st2, none) => execBody fuel body st2)

/-- The parameter loop of `LoxFunction.Call`: `env.Define(param.Lexme,
arguments[i])`, panicking on an out-of-range index. -/
def defineParams : Nat → List Token → Nat → Nat → List LoxValue → IState →
    IState × Option EvalErr
  | 0, _, _, _, _, st => (st, some .outOfFuel)
  | _ + 1, [], _, _, _, st => (st, none)
  | fuel + 1, p :: rest, i, envId, argv, st =>
    (match argv.get? i with
    | some v =>
      defineParams fuel rest (i + 1) envId argv (envDefine st envId p.lexme v)
    | none => (st, some (.goPanic "index out of range")))

/-- The body loop of `LoxFunction.Call`: execute statements; a
`ReturnError` becomes the call's value, any other error propagates;
falling off the end returns `LoxNil`. -/
def execBody : Nat → List Stmt → IState → IState × Except EvalErr LoxValue
  | 0, _, st => (st, .error .outOfFuel)
  | _ + 1, [], st => (st, .ok .LoxNil)
  | fuel + 1, s :: rest, st =>
    (match evalStmt fuel s st with
    | (st1, none) => execBody fuel rest st1
    | (st1, some (.returnErr v)) => (st1, .ok v)
    | (st1, some e) => (st1, .error e))

/-- Modelled from the spec (4.5, statement semantics; the per-node
`Evaluate` methods of this generation are absent from src): expression
statements evaluate and discard; `print` evaluates and writes to the
output sink; `var` defines the initializer's value (nil when absent) in
the current scope; a block allocates a fresh environment enclosing the
current one and runs `executeBlock` (whose source is in
interpreter.go); `if` and `while` test truthiness, `while` catching a
`Break` signal as normal loop exit; `break` raises `Break`; `return`
raises `Return` with the evaluated value (nil when absent); a function
declaration defines a `Function` value capturing the current
environment. -/
def evalStmt : Nat → Stmt → IState → IState × Option EvalErr
  | 0, _, st => (st, some .outOfFuel)
  | fuel + 1, .ExpressionStmt e, st =>
    (match evalExpr fuel e st with
    | (st1, .error err) => (st1, some err)
    | (st1, .ok _) => (st1, none))
  | fuel + 1, .PrintStmt e, st =>
    (match evalExpr fuel e st with
    | (st1, .error err) => (st1, some err)
    | (st1, .ok v) => ({st1 with output := (st1.output ++ [v])}, none))
  | fuel + 1, .VarStmt name init, st =>
    (match init with
    | none => (envDefine st st.current_env name.lexme .LoxNil, none)
    | some e =>
      match evalExpr fuel e st with
      | (st1, .error err) => (st1, some err)
      | (st1, .ok v) => (envDefine st1 st1.current_env name.lexme v, none))
  | fuel + 1, .BlockStmt stmts, st =>
    (match NewEnvironment (some st.current_env) st with
    | (envId, st1) => executeBlock fuel stmts envId st1)
  | fuel + 1, .IfStmt c t e, st =>
    (match evalExpr fuel c st with
    | (st1, .error err) => (st1, some err)
    | (st1, .ok cv) =>
      if isTruthy cv then evalStmt fuel t st1
      else
        match e with
        | some el => evalStmt fuel el st1
        | none => (st1, none))
  | fuel + 1, .WhileStmt c b, st =>
    (match evalExpr fuel c st with
    | (st1, .error err) => (st1, some err)
    | (st1, .ok cv) =>
      if isTruthy cv then
        match evalStmt fuel b st1 with
        | (st2, none) => evalStmt fuel (.WhileStmt c b) st2
        | (st2, some .breakErr) => (st2, none)
        | (st2, some err) => (st2, some err)
      else (st1, none))
  | _ + 1, .BreakStmt, st => (st, some .breakErr)
  | fuel + 1, .ReturnStmt e, st =>
    (match e with
    | none => (st, some (.returnErr .LoxNil))
    | some ex =>
      match evalExpr fuel ex st with
      | (st1, .error err) => (st1, some err)
      | (st1, .ok v) => (st1, some (.returnErr v)))
  | _ + 1, .FunctionStmt name params body, st =>
    (envDefine st st.current_env name.lexme
      (.LoxFunction params body st.current_env), none)

/-- `executeBlock(statements, env)` from `internal/ast/interpreter.go`
(lines 42-54): save `current_env`, install `env`, run the statements
stopping at the first error, and restore `current_env` via `defer` on
every exit path. -/
def executeBlock : Nat → List Stmt → Nat → IState → IState × Option EvalErr
  | 0, _, _, st => (st, some .outOfFuel)
  | fuel + 1, stmts, envId, st =>
    (match evalStmts fuel stmts {st with current_env := envId} with
    | (st1, r) => ({st1 with current_env := st.current_env}, r))

/-- The statement loop of `executeBlock`: stop at the first error. -/
def evalStmts : Nat → List Stmt → IState → IState × Option EvalErr
  | 0, _, st => (st, some .outOfFuel)
  | _ + 1, [], st => (st, none)
  | fuel + 1, s :: rest, st =>
    (match evalStmt fuel s st with
    | (st1, none) => evalStmts fuel rest st1
    | (st1, some e) => (st1, some e))

end

/-- The initial interpreter state: one global environment — allocated by
`NewEnvironment(nil)` in interpreter.go — that is also the current
one. -/
def initState : IState :=
  ⟨[⟨[], none⟩], 0, 0, [], []⟩

/-- C4: a call whose argument count differs from the callee's arity
evaluates to a runtime error with the callee's body not executed.  The
call site compares the count against `Arity` after evaluating callee and
arguments and before invoking, so on a mismatch the result is exactly
the state after argument evaluation together with a `runtime` error — in
particular not the `goPanic` that the unchecked `arguments[i]` indexing
of `LoxFunction.Call` would raise, which is never reached.  The second
conjunct is the source-level arity check of `NativeFunction.Call`
itself (value.go:222-235). -/
theorem C4_arity_mismatch_is_runtime_error
    (fuel : Nat) (callee : Expr) (paren : Token) (args : List Expr)
    (st st1 st2 : IState) (cv : LoxValue) (argv : List LoxValue)
    (hcal : evalExpr fuel callee st = (st1, .ok cv))
    (hargs : evalArgs fuel args st1 = (st2, .ok argv))
    (hcallable : isCallable cv = true)
    (hmis : argv.length ≠ Arity cv) :
    (evalExpr (fuel + 1) (.CallStmt callee paren args) st
      = (st2, .error (NewRuntimeError ("expected " ++ toString (Arity cv) ++
          " arguments but got " ++ toString argv.length)))) ∧
    (∀ (n : Nat) (tag : NativeTag) (argv2 : List LoxValue) (st3 : IState),
      argv2.length ≠ n →
      NativeFunctionCall n tag argv2 st3
        = (st3, .error (NewRuntimeError ("expected " ++ toString n ++
            " arguments but got " ++ toString argv2.length)))) := by
  constructor
  · unfold evalExpr
    rw [hcal]
    dsimp only
    rw [hargs]
    dsimp only
    rw [if_pos hcallable, if_pos hmis]
  · intro n tag argv2 st3 hn
    unfold NativeFunctionCall
    rw [if_pos hn]

/-- Witness for C4: calling a one-parameter function with no arguments,
`(fun(x){ print x; })()`, is the arity runtime error with the state
untouched; likewise calling the one-argument native `type` with no
arguments. -/
theorem C4_arity_mismatch_is_runtime_error_witness :
    (evalExpr 3 (.CallStmt
        (.FunctionExpr [Res.ident "x"]
          [.PrintStmt (.VariableExpr (Res.ident "x"))])
        (Res.ident "c") []) initState
      = (initState,
         .error (NewRuntimeError "expected 1 arguments but got 0"))) ∧
    (NativeFunctionCall 1 .typeFn [] initState
      = (initState,
         .error (NewRuntimeError "expected 1 arguments but got 0"))) :=
  ⟨(C4_arity_mismatch_is_runtime_error 2
      (.FunctionExpr [Res.ident "x"]
        [.PrintStmt (.VariableExpr (Res.ident "x"))])
      (Res.ident "c") [] initState initState initState
      (.LoxFunction [Res.ident "x"]
        [.PrintStmt (.VariableExpr (Res.ident "x"))] 0) []
      rfl rfl rfl (by decide)).1,
   (C4_arity_mismatch_is_runtime_error 2
      (.FunctionExpr [Res.ident "x"]
        [.PrintStmt (.VariableExpr (Res.ident "x"))])
      (Res.ident "c") [] initState initState initState
      (.LoxFunction [Res.ident "x"]
        [.PrintStmt (.VariableExpr (Res.ident "x"))] 0) []
      rfl rfl rfl (by decide)).2 1 .typeFn [] initState (by decide)⟩

/-- C8: a block statement allocates a fresh environment enclosing the
current one and runs its body through `executeBlock`, and the previous
current environment is back in place after the block on EVERY exit path
— normal completion, a `Break` signal, a `Return` signal, a runtime
error, even an exhausted fuel budget — because `executeBlock` restores
`current_env` unconditionally (the `defer` of interpreter.go:45).  The
first conjunct states this for the block statement, the second for
`executeBlock` itself on any environment and state. -/
theorem C8_block_restores_environment (fuel : Nat) (stmts : List Stmt)
    (st : IState) :
    (evalStmt fuel (.BlockStmt stmts) st).1.current_env = st.current_env ∧
    ∀ (envId : Nat) (st0 : IState),
      (executeBlock fuel stmts envId st0).1.current_env
        = st0.current_env := by
  have hexec : ∀ (g : Nat) (envId : Nat) (st0 : IState),
      (executeBlock g stmts envId st0).1.current_env = st0.current_env := by
    intro g envId st0
    match g with
    | 0 => rfl
    | g + 1 =>
      unfold executeBlock
      cases hev : evalStmts g stmts {st0 with current_env := envId} with
      | mk st1 r => rfl
  refine ⟨?_, hexec fuel⟩
  match fuel with
  | 0 => rfl
  | f + 1 =>
    show (executeBlock f stmts st.frames.length
      {st with frames := (st.frames ++ [⟨[], some st.current_env⟩])}
      ).1.current_env = st.current_env
    exact hexec f st.frames.length _

/-- The four exit paths of a block, concretely: `break`, `return`, a
runtime error (unary minus on a string) and normal completion (a
declaration) all leave `current_env` where it was, while the outcome
signal differs. -/
theorem executeBlock_exit_paths :
    ((evalStmt 9 (.BlockStmt [.BreakStmt]) initState).2 = some .breakErr ∧
      (evalStmt 9 (.BlockStmt [.BreakStmt]) initState).1.current_env = 0) ∧
    ((evalStmt 9 (.BlockStmt [.ReturnStmt none]) initState).2
        = some (.returnErr .LoxNil) ∧
      (evalStmt 9 (.BlockStmt [.ReturnStmt none]) initState).1.current_env
        = 0) ∧
    ((evalStmt 9 (.BlockStmt [.ExpressionStmt
          (.UnaryExpr ⟨.MINUS, "-", none, 1⟩
            (.LiteralExpr (.LoxString "s")))]) initState).2
        = some (NewRuntimeError "operand must be a number") ∧
      (evalStmt 9 (.BlockStmt [.ExpressionStmt
          (.UnaryExpr ⟨.MINUS, "-", none, 1⟩
            (.LiteralExpr (.LoxString "s")))]) initState).1.current_env
        = 0) ∧
    ((evalStmt 9 (.BlockStmt [.VarStmt (Res.ident "x")
          (some (.LiteralExpr (.LoxBoolean true)))]) initState).2 = none ∧
      (evalStmt 9 (.BlockStmt [.VarStmt (Res.ident "x")
          (some (.LiteralExpr (.LoxBoolean true)))])
          initState).1.current_env = 0) :=
  ⟨⟨rfl, rfl⟩, ⟨rfl, rfl⟩, ⟨rfl, rfl⟩, ⟨rfl, rfl⟩⟩

end G3

end Lox
